import Mathlib

/-!
# meet.mike.game scheduler: availability engine, booking validator, request store

A shallow embedding of `src/main.go`.  Go's `time.Time` values are modelled as an
integer count of nanoseconds since the Unix epoch (every time in the program is UTC:
`time.Parse` without a zone and `time.Date(..., time.UTC)`), `time.Duration` as an
integer count of nanoseconds wrapped to 64 bits where the program multiplies.
The pieces of the Go standard library the program calls (`time.Parse` for the three
layouts it uses, `time.Date`, `Year/Month/Day/Hour/Minute`, `Format("15:04")`) are
modelled after the library's documented behaviour on the proleptic Gregorian calendar.
-/

namespace MeetMike

/-! ## Go `time` package -/

/-- An instant: nanoseconds since 1970-01-01T00:00:00Z. -/
structure Time where
  unixNano : Int
  deriving DecidableEq, Repr

/-- The constant `time.Minute`, a `time.Duration` in nanoseconds. -/
def Minute : Int := 60000000000

/-- The constant `time.Hour`. -/
def Hour : Int := 3600000000000

/-- Nanoseconds in a civil day. -/
def nsPerDay : Int := 86400000000000

/-- Two's-complement wrap of an integer to `int64`. -/
def wrapInt64 (x : Int) : Int :=
  (x + 9223372036854775808) % 18446744073709551616 - 9223372036854775808

/-- The Go expression `time.Duration(n) * time.Minute` on `int64`. -/
def minutesDuration (n : Int) : Int := wrapInt64 (n * Minute)

namespace Time

/-- The method `t.Add(d)`. -/
def Add (t : Time) (d : Int) : Time := ⟨t.unixNano + d⟩

/-- The method `t.Before(u)`. -/
def Before (t u : Time) : Bool := decide (t.unixNano < u.unixNano)

/-- The method `t.After(u)`. -/
def After (t u : Time) : Bool := decide (u.unixNano < t.unixNano)

/-- The method `t.Equal(u)`. -/
def Equal (t u : Time) : Bool := decide (t.unixNano = u.unixNano)

end Time

/-- Civil date (year, month, day) of a day number counted from 1970-01-01,
proleptic Gregorian calendar. -/
def civilFromDays (z0 : Int) : Int × Int × Int :=
  let z := z0 + 719468
  let era := z / 146097
  let doe := z - era * 146097
  let yoe := (doe - doe / 1460 + doe / 36524 - doe / 146096) / 365
  let doy := doe - (365 * yoe + yoe / 4 - yoe / 100)
  let mp := (5 * doy + 2) / 153
  let d := doy - (153 * mp + 2) / 5 + 1
  let m := if mp < 10 then mp + 3 else mp - 9
  let y := yoe + era * 400
  (if m ≤ 2 then y + 1 else y, m, d)

/-- Day number counted from 1970-01-01 of a civil date with month in 1..12
(the day may lie outside the month: it is added linearly, as `time.Date` normalises). -/
def daysFromCivil (y m d : Int) : Int :=
  let y1 := if m ≤ 2 then y - 1 else y
  let era := y1 / 400
  let yoe := y1 - era * 400
  let mp := if m > 2 then m - 3 else m + 9
  let doy := (153 * mp + 2) / 5 + d - 1
  let doe := yoe * 365 + yoe / 4 - yoe / 100 + doy
  era * 146097 + doe - 719468

/-- The function `time.Date(year, month, day, hour, min, sec, nsec, time.UTC)`: the month is
normalised into 1..12 by carrying into the year, the other fields overflow linearly. -/
def Date (year month day hour min sec nsec : Int) : Time :=
  let m0 := month - 1
  let y := year + m0 / 12
  let m := m0 % 12 + 1
  ⟨daysFromCivil y m day * nsPerDay + hour * Hour + min * Minute + sec * 1000000000 + nsec⟩

namespace Time

/-- The method `t.Year()` in UTC. -/
def Year (t : Time) : Int := (civilFromDays (t.unixNano / nsPerDay)).1

/-- The method `t.Month()` in UTC, as a number 1..12. -/
def Month (t : Time) : Int := (civilFromDays (t.unixNano / nsPerDay)).2.1

/-- The method `t.Day()` in UTC. -/
def Day (t : Time) : Int := (civilFromDays (t.unixNano / nsPerDay)).2.2

/-- The method `t.Hour()` in UTC, in 0..23. -/
def Hour (t : Time) : Int := t.unixNano % nsPerDay / MeetMike.Hour

/-- The method `t.Minute()` in UTC, in 0..59. -/
def Minute (t : Time) : Int := t.unixNano % MeetMike.Hour / MeetMike.Minute

/-- The method `t.Unix()`: seconds since the epoch. -/
def Unix (t : Time) : Int := t.unixNano / 1000000000

/-- The method `t.Nanosecond()`: nanosecond offset within the second. -/
def Nanosecond (t : Time) : Int := t.unixNano % 1000000000

end Time

/-- Go's `isLeap`. -/
def isLeap (year : Int) : Bool :=
  year % 4 == 0 && (year % 100 != 0 || year % 400 == 0)

/-- Go's `daysIn(month, year)`. -/
def daysIn (month year : Int) : Int :=
  if month = 2 then (if isLeap year then 29 else 28)
  else if month = 4 ∨ month = 6 ∨ month = 9 ∨ month = 11 then 30
  else 31

/-! ### `time.Parse` for the layouts the program uses -/

/-- An ASCII decimal digit. -/
def isDigitChar (c : Char) : Bool := decide (48 ≤ c.toNat ∧ c.toNat ≤ 57)

/-- Value of a decimal digit. -/
def digitVal (c : Char) : Int := Int.ofNat (c.toNat - 48)

/-- Go's `getnum(s, fixed)`: one or two leading digits; exactly two when `fixed`. -/
def getnum (s : List Char) (fixed : Bool) : Option (Int × List Char) :=
  match s with
  | [] => none
  | c0 :: rest =>
    if isDigitChar c0 then
      match rest with
      | [] => if fixed then none else some (digitVal c0, rest)
      | c1 :: rest2 =>
        if isDigitChar c1 then some (digitVal c0 * 10 + digitVal c1, rest2)
        else if fixed then none else some (digitVal c0, rest)
    else none

/-- The layout element `2006`: exactly four digits. -/
def getLongYear (s : List Char) : Option (Int × List Char) :=
  match s with
  | a :: b :: c :: d :: rest =>
    if isDigitChar a && isDigitChar b && isDigitChar c && isDigitChar d then
      some (digitVal a * 1000 + digitVal b * 100 + digitVal c * 10 + digitVal d, rest)
    else none
  | _ => none

/-- Go's `cutspace`. -/
def cutspace (s : List Char) : List Char := s.dropWhile (fun c => c == ' ')

/-- Go's `skip(value, prefix)` for a literal prefix without spaces: every character must match. -/
def skipLit : List Char → List Char → Option (List Char)
  | value, [] => some value
  | [], _ :: _ => none
  | v :: value, p :: pre => if v = p then skipLit value pre else none

/-- Go's `skip(value, " ")`: a space in the layout matches zero or more spaces of the value,
and fails when the value continues with something that is not a space. -/
def skipSpace (value : List Char) : Option (List Char) :=
  match value with
  | [] => some []
  | v :: _ => if v = ' ' then some (cutspace value) else none

/-- The call `time.Parse("2006-01-02", value)`; `none` stands for a non-nil error. -/
def parseDate (value : String) : Option Time := do
  let (year, v) ← getLongYear value.toList
  let v ← skipLit v ['-']
  let (month, v) ← getnum v true
  if month ≤ 0 ∨ 12 < month then none
  let v ← skipLit v ['-']
  let (day, v) ← getnum v true
  if v ≠ [] then none
  if day < 1 ∨ day > daysIn month year then none
  some (Date year month day 0 0 0 0)

/-- The call `time.Parse("15:04", value)`: the date fields default to January 1 of year 0. -/
def parseClock (value : String) : Option Time := do
  let (hour, v) ← getnum value.toList false
  if hour < 0 ∨ 24 ≤ hour then none
  let v ← skipLit v [':']
  let (min, v) ← getnum v true
  if min < 0 ∨ 60 ≤ min then none
  if v ≠ [] then none
  some (Date 0 1 1 hour min 0 0)

/-- The call `time.Parse("2006-01-02 15:04", value)`. -/
def parseDateTime (value : String) : Option Time := do
  let (year, v) ← getLongYear value.toList
  let v ← skipLit v ['-']
  let (month, v) ← getnum v true
  if month ≤ 0 ∨ 12 < month then none
  let v ← skipLit v ['-']
  let (day, v) ← getnum v true
  let v ← skipSpace v
  let (hour, v) ← getnum v false
  if hour < 0 ∨ 24 ≤ hour then none
  let v ← skipLit v [':']
  let (min, v) ← getnum v true
  if min < 0 ∨ 60 ≤ min then none
  if v ≠ [] then none
  if day < 1 ∨ day > daysIn month year then none
  some (Date year month day hour min 0 0)

/-- Two decimal digits, zero padded, as `Format` writes an hour or a minute. -/
def pad2 (n : Int) : String :=
  String.mk [Char.ofNat (48 + (n / 10 % 10).toNat), Char.ofNat (48 + (n % 10).toNat)]

/-- The call `t.Format("15:04")`. -/
def Time.Format1504 (t : Time) : String :=
  pad2 t.Hour ++ ":" ++ pad2 t.Minute

/-- The zero value `time.Time{}`: January 1 of year 1, 00:00 UTC. -/
def zeroTime : Time := Date 1 1 1 0 0 0 0

/-! ## Data model (`src/main.go` lines 17-93) -/

/-- The Go struct `TimeSlot`. -/
structure TimeSlot where
  Time : String
  Available : Bool
  deriving DecidableEq, Repr

/-- The Go struct `TimeRange`. -/
structure TimeRange where
  Start : String
  End : String
  deriving DecidableEq, Repr

/-- The Go struct `MeetingType`. -/
structure MeetingType where
  ID : String
  Title : String
  Description : String
  DurationMinutes : Int
  Mode : String
  DateStart : String
  DateEnd : String
  DailyStart : String
  DailyEnd : String
  Blocked : List TimeRange
  deriving DecidableEq, Repr

/-! ## Time-window helpers (`src/main.go` lines 444-514) -/

/-- The function `dateInRange`. -/
def dateInRange (date : Time) (startDate : String) (endDate : String) : Bool :=
  match parseDate startDate with
  | none => false
  | some start =>
    match parseDate endDate with
    | none => false
    | some end_ =>
      if date.Before start then false
      else if date.After (end_.Add (23 * Hour)) then false
      else true

/-- The function `buildDailyWindow`. -/
def buildDailyWindow (date : Time) (meetingType : MeetingType) : Time × Time × Bool :=
  match parseClock meetingType.DailyStart with
  | none => (zeroTime, zeroTime, false)
  | some startClock =>
    match parseClock meetingType.DailyEnd with
    | none => (zeroTime, zeroTime, false)
    | some endClock =>
      (Date date.Year date.Month date.Day startClock.Hour startClock.Minute 0 0,
       Date date.Year date.Month date.Day endClock.Hour endClock.Minute 0 0,
       true)

/-- The loop of `overlapsBlockedRange` over the blocked ranges still to visit. -/
def overlapsBlockedLoop (start end_ : Time) : List TimeRange → Bool
  | [] => false
  | block :: rest =>
    match parseClock block.Start with
    | none => overlapsBlockedLoop start end_ rest
    | some blockStartClock =>
      match parseClock block.End with
      | none => overlapsBlockedLoop start end_ rest
      | some blockEndClock =>
        let blockStart := Date start.Year start.Month start.Day
          blockStartClock.Hour blockStartClock.Minute 0 0
        let blockEnd := Date start.Year start.Month start.Day
          blockEndClock.Hour blockEndClock.Minute 0 0
        if start.Before blockEnd && end_.After blockStart then true
        else overlapsBlockedLoop start end_ rest

/-- The function `overlapsBlockedRange`. -/
def overlapsBlockedRange (start end_ : Time) (meetingType : MeetingType) : Bool :=
  overlapsBlockedLoop start end_ meetingType.Blocked

/-- The function `isWithinDailyWindow`. -/
def isWithinDailyWindow (start end_ : Time) (meetingType : MeetingType) : Bool :=
  match buildDailyWindow start meetingType with
  | (dailyStart, dailyEnd, ok) =>
    if !ok then false
    else if start.Before dailyStart then false
    else if end_.After dailyEnd then false
    else true

/-! ## Availability engine (`src/main.go` lines 328-369) -/

/-- The constant `slotIntervalMinutes` of `getAvailableSlots`. -/
def slotIntervalMinutes : Int := 10

/-- The `for` loop of `getAvailableSlots`, entered with the current `slotStart` and the
slots appended so far.  Every iteration moves `slotStart` forward by ten minutes, so the
distance to `dailyEnd` shrinks and the loop ends. -/
def slotLoop (meetingType : MeetingType) (meetingDuration : Int) (dailyEnd : Time)
    (slotStart : Time) (slots : List TimeSlot) : List TimeSlot :=
  if (slotStart.Add meetingDuration).Before dailyEnd
      || (slotStart.Add meetingDuration).Equal dailyEnd then
    let slotEnd := slotStart.Add meetingDuration
    if overlapsBlockedRange slotStart slotEnd meetingType then
      slotLoop meetingType meetingDuration dailyEnd
        (slotStart.Add (minutesDuration slotIntervalMinutes)) slots
    else
      let available := true
      slotLoop meetingType meetingDuration dailyEnd
        (slotStart.Add (minutesDuration slotIntervalMinutes))
        (slots ++ [{ Time := slotStart.Format1504, Available := available }])
  else slots
termination_by (dailyEnd.unixNano - (slotStart.unixNano + meetingDuration) + 1).toNat
decreasing_by
  all_goals
    simp only [Time.Add, Time.Before, Time.Equal, Bool.or_eq_true, decide_eq_true_eq] at *
    simp only [minutesDuration, slotIntervalMinutes, wrapInt64, Minute]
    omega

/-- The function `getAvailableSlots`. -/
def getAvailableSlots (date : Time) (timezone : String) (meetingType : MeetingType) :
    List TimeSlot :=
  let slots : List TimeSlot := []
  let _ := timezone
  let meetingDuration := minutesDuration meetingType.DurationMinutes
  match buildDailyWindow date meetingType with
  | (dailyStart, dailyEnd, ok) =>
    if !ok then slots
    else slotLoop meetingType meetingDuration dailyEnd dailyStart slots

/-! ## Catalog (`src/main.go` lines 104-155) -/

/-- The catalog entry `gdc-pleasant-talk`. -/
def gdcPleasantTalk : MeetingType :=
  { ID := "gdc-pleasant-talk", Title := "GDC: A Pleasant Talk",
    Description := "Have something you want to talk to me about specifically? A little more time will be good for us to run through it all.",
    DurationMinutes := 40, Mode := "in-person",
    DateStart := "2026-03-09", DateEnd := "2026-03-13",
    DailyStart := "09:00", DailyEnd := "17:00",
    Blocked := [{ Start := "11:45", End := "13:15" }] }

/-- The catalog entry `gdc-quick-chat`. -/
def gdcQuickChat : MeetingType :=
  { ID := "gdc-quick-chat", Title := "GDC: A Quick Chat",
    Description := "Let\x27s meet quickly, catch up, and discuss what\x27s happening!",
    DurationMinutes := 20, Mode := "in-person",
    DateStart := "2026-03-09", DateEnd := "2026-03-13",
    DailyStart := "09:00", DailyEnd := "17:00",
    Blocked := [{ Start := "11:45", End := "13:15" }] }

/-- The catalog entry `gdc-lunch`. -/
def gdcLunch : MeetingType :=
  { ID := "gdc-lunch", Title := "GDC: Lunch",
    Description := "Meet in person for lunch during GDC.",
    DurationMinutes := 60, Mode := "in-person",
    DateStart := "2026-03-09", DateEnd := "2026-03-13",
    DailyStart := "12:00", DailyEnd := "13:00",
    Blocked := [] }

/-- The catalog entry `gdc-dinner`. -/
def gdcDinner : MeetingType :=
  { ID := "gdc-dinner", Title := "GDC: Dinner",
    Description := "Meet in person for dinner during GDC.",
    DurationMinutes := 120, Mode := "in-person",
    DateStart := "2026-03-09", DateEnd := "2026-03-13",
    DailyStart := "17:30", DailyEnd := "19:30",
    Blocked := [] }

/-- The package-level map `meetingTypes`; a lookup that misses gives `none`
(the `ok == false` of Go's two-value map read). -/
def meetingTypes (id : String) : Option MeetingType :=
  if id = "gdc-pleasant-talk" then some gdcPleasantTalk
  else if id = "gdc-quick-chat" then some gdcQuickChat
  else if id = "gdc-lunch" then some gdcLunch
  else if id = "gdc-dinner" then some gdcDinner
  else none

/-! ## Request store and HTTP handlers -/

/-- The Go struct `Appointment`. -/
structure Appointment where
  ID : String
  MeetingTypeID : String
  MeetingTypeTitle : String
  DurationMinutes : Int
  Email : String
  Name : String
  Company : String
  Role : String
  DiscussionTopics : List String
  DiscussionDetails : String
  StartTime : Time
  EndTime : Time
  Timezone : String
  CreatedAt : Time
  deriving DecidableEq, Repr

/-- The Go struct `PendingRequest`; `Status` is one of pending, approved, denied. -/
structure PendingRequest where
  ID : String
  Token : String
  MeetingTypeID : String
  MeetingTypeTitle : String
  DurationMinutes : Int
  Email : String
  Name : String
  Company : String
  Role : String
  DiscussionTopics : List String
  DiscussionDetails : String
  RequestedDate : String
  RequestedTime : String
  Timezone : String
  Status : String
  CreatedAt : Time
  deriving DecidableEq, Repr

/-- The Go struct `AvailabilityRequest`. -/
structure AvailabilityRequest where
  Date : String
  Timezone : String
  MeetingTypeID : String
  deriving DecidableEq, Repr

/-- The Go struct `BookingRequest`. -/
structure BookingRequest where
  MeetingTypeID : String
  Name : String
  Email : String
  Company : String
  Role : String
  Date : String
  Time : String
  Timezone : String
  DiscussionTopics : List String
  DiscussionDetails : String
  deriving DecidableEq, Repr

/-- The two package-level slices guarded by `appointmentsMutex`. -/
structure Store where
  appointments : List Appointment
  pendingRequests : List PendingRequest
  deriving DecidableEq, Repr

/-- What a handler writes to the `http.ResponseWriter`. -/
inductive Response where
  /-- The call `http.Error(w, msg, code)`. -/
  | error (msg : String) (code : Nat)
  /-- A JSON-encoded slice of time slots, status 200. -/
  | slots (s : List TimeSlot)
  /-- The JSON object with `success` and the `id` of the new pending request. -/
  | booked (id : String)
  /-- An HTML body, status 200. -/
  | html (body : String)
  deriving DecidableEq, Repr

/-- Whether the response is an `http.Error`. -/
def Response.isError : Response → Bool
  | .error _ _ => true
  | _ => false

/-- Lock operations and outbound notification calls of a handler, in execution order. -/
inductive Effect where
  | lock
  | unlock
  | sendAdminNotification (pr : PendingRequest)
  | sendConfirmationEmail (a : Appointment)
  | sendDeclineEmail (pr : PendingRequest)
  deriving DecidableEq, Repr

/-- Result of running a handler: the response, the store afterwards, the effects. -/
structure Outcome where
  response : Response
  store : Store
  effects : List Effect
  deriving DecidableEq, Repr

/-- The values a handler call reads from the clock and the random source:
the 32 bytes `rand.Read` fills in `generateToken`, the two `time.Now()` readings of
`generateID`, and the `time.Now()` stored in `CreatedAt`. -/
structure Env where
  randomBytes : List Nat
  idClockUnix : Time
  idClockNano : Time
  createdAt : Time
  deriving DecidableEq, Repr

/-- The function `generateID`, given its two clock readings. -/
def generateID (now1 now2 : Time) : String :=
  toString now1.Unix ++ "-" ++ toString now2.Nanosecond

/-- A lower-case hexadecimal digit. -/
def hexDigit (n : Nat) : Char :=
  if n < 10 then Char.ofNat (48 + n) else Char.ofNat (87 + n)

/-- The call `hex.EncodeToString(b)`. -/
def hexEncode (b : List Nat) : String :=
  String.mk (b.flatMap (fun x => [hexDigit (x % 256 / 16), hexDigit (x % 16)]))

/-- The function `generateToken`, given the bytes read from `crypto/rand`. -/
def generateToken (randomBytes : List Nat) : String :=
  hexEncode randomBytes

deriving instance DecidableEq for Except

/-- Lines 268-290 of `handleBooking`: the validation of the requested date and time.
An `error` carries the message handed to `http.Error` (always with status 400),
`ok` the computed `startTime` and `endTime`. -/
def validateBooking (meetingType : MeetingType) (date time : String) :
    Except String (Time × Time) :=
  match parseDateTime (date ++ " " ++ time) with
  | none => .error "Invalid date/time format"
  | some startTime =>
    if !dateInRange startTime meetingType.DateStart meetingType.DateEnd then
      .error "Selected date is not available for this meeting type"
    else
      let endTime := startTime.Add (minutesDuration meetingType.DurationMinutes)
      if !isWithinDailyWindow startTime endTime meetingType then
        .error "Selected time is outside of available hours"
      else if overlapsBlockedRange startTime endTime meetingType then
        .error "Selected time overlaps a blocked period"
      else .ok (startTime, endTime)

/-- The `PendingRequest` literal built by `handleBooking` (lines 294-311). -/
def newPendingRequest (env : Env) (req : BookingRequest) (meetingType : MeetingType)
    (token : String) : PendingRequest :=
  { ID := generateID env.idClockUnix env.idClockNano
    Token := token
    MeetingTypeID := meetingType.ID
    MeetingTypeTitle := meetingType.Title
    DurationMinutes := meetingType.DurationMinutes
    Name := req.Name
    Email := req.Email
    Company := req.Company
    Role := req.Role
    DiscussionTopics := req.DiscussionTopics
    DiscussionDetails := req.DiscussionDetails
    RequestedDate := req.Date
    RequestedTime := req.Time
    Timezone := req.Timezone
    Status := "pending"
    CreatedAt := env.createdAt }

/-- The function `handleBooking`.  `body` is the decoded JSON body (`none` when decoding
fails); `catalog` is the map `meetingTypes`. -/
def handleBooking (catalog : String → Option MeetingType) (env : Env) (method : String)
    (body : Option BookingRequest) (st : Store) : Outcome :=
  if method ≠ "POST" then ⟨.error "Method not allowed" 405, st, []⟩
  else
    match body with
    | none => ⟨.error "Invalid request" 400, st, []⟩
    | some req =>
      if req.MeetingTypeID = "" then ⟨.error "Meeting type is required" 400, st, []⟩
      else
        match catalog req.MeetingTypeID with
        | none => ⟨.error "Invalid meeting type" 400, st, []⟩
        | some meetingType =>
          if req.Name = "" ∨ req.Email = "" ∨ req.Date = "" ∨ req.Time = ""
              ∨ req.DiscussionDetails = "" then
            ⟨.error "Missing required fields" 400, st, []⟩
          else
            match validateBooking meetingType req.Date req.Time with
            | .error msg => ⟨.error msg 400, st, []⟩
            | .ok _ =>
              let token := generateToken env.randomBytes
              let pendingRequest := newPendingRequest env req meetingType token
              ⟨.booked pendingRequest.ID,
               { st with pendingRequests := st.pendingRequests ++ [pendingRequest] },
               [.lock, .unlock, .sendAdminNotification pendingRequest]⟩

/-- The function `handleAvailability` with the slot engine it calls as a parameter. -/
def handleAvailabilityWith (engine : Time → String → MeetingType → List TimeSlot)
    (catalog : String → Option MeetingType) (method : String)
    (body : Option AvailabilityRequest) : Response :=
  if method ≠ "POST" then .error "Method not allowed" 405
  else
    match body with
    | none => .error "Invalid request" 400
    | some req =>
      if req.MeetingTypeID = "" then .error "Meeting type is required" 400
      else
        match catalog req.MeetingTypeID with
        | none => .error "Invalid meeting type" 400
        | some meetingType =>
          match parseDate req.Date with
          | none => .error "Invalid date format" 400
          | some date =>
            if !dateInRange date meetingType.DateStart meetingType.DateEnd then .slots []
            else .slots (engine date req.Timezone meetingType)

/-- The function `handleAvailability`. -/
def handleAvailability (catalog : String → Option MeetingType) (method : String)
    (body : Option AvailabilityRequest) : Response :=
  handleAvailabilityWith getAvailableSlots catalog method body

/-- The scan shared by `handleApprove` and `handleDeny`: index of, and value at, the first
element whose token matches and whose status is pending (`none` for a nil pointer). -/
def findPending (token : String) : List PendingRequest → Option (Nat × PendingRequest)
  | [] => none
  | r :: rest =>
    if r.Token = token ∧ r.Status = "pending" then some (0, r)
    else (findPending token rest).map (fun p => (p.1 + 1, p.2))

/-- The `Appointment` literal built by `handleApprove` (lines 723-738). -/
def newAppointment (env : Env) (request : PendingRequest) (startTime endTime : Time) :
    Appointment :=
  { ID := generateID env.idClockUnix env.idClockNano
    MeetingTypeID := request.MeetingTypeID
    MeetingTypeTitle := request.MeetingTypeTitle
    DurationMinutes := request.DurationMinutes
    Email := request.Email
    Name := request.Name
    Company := request.Company
    Role := request.Role
    DiscussionTopics := request.DiscussionTopics
    DiscussionDetails := request.DiscussionDetails
    StartTime := startTime
    EndTime := endTime
    Timezone := request.Timezone
    CreatedAt := env.createdAt }

/-- The function `handleApprove`; `token` is `r.FormValue("token")`.  The deferred `Unlock`
runs when the handler returns, after the confirmation email is sent. -/
def handleApprove (env : Env) (method : String) (token : String) (st : Store) : Outcome :=
  if method ≠ "POST" then ⟨.error "Method not allowed" 405, st, []⟩
  else if token = "" then ⟨.error "Missing token" 400, st, []⟩
  else
    match findPending token st.pendingRequests with
    | none => ⟨.error "Request not found or already processed" 404, st, [.lock, .unlock]⟩
    | some (i, request) =>
      let startTime :=
        (parseDateTime (request.RequestedDate ++ " " ++ request.RequestedTime)).getD zeroTime
      let endTime := startTime.Add (minutesDuration request.DurationMinutes)
      let appointment := newAppointment env request startTime endTime
      ⟨.html "<html><body><h2>Meeting Approved!</h2><p>A calendar invitation has been sent to the attendee.</p></body></html>",
       { appointments := st.appointments ++ [appointment]
         pendingRequests := st.pendingRequests.set i { request with Status := "approved" } },
       [.lock, .sendConfirmationEmail appointment, .unlock]⟩

/-- The function `handleDeny`. -/
def handleDeny (method : String) (token : String) (st : Store) : Outcome :=
  if method ≠ "POST" then ⟨.error "Method not allowed" 405, st, []⟩
  else if token = "" then ⟨.error "Missing token" 400, st, []⟩
  else
    match findPending token st.pendingRequests with
    | none => ⟨.error "Request not found or already processed" 404, st, [.lock, .unlock]⟩
    | some (i, request) =>
      ⟨.html "<html><body><h2>Meeting Declined</h2><p>A polite message has been sent to the requester.</p></body></html>",
       { st with pendingRequests := st.pendingRequests.set i { request with Status := "denied" } },
       [.lock, .sendDeclineEmail { request with Status := "denied" }, .unlock]⟩

/-- One call of a store-mutating handler. -/
inductive StoreOp where
  | book (env : Env) (method : String) (body : Option BookingRequest)
  | approve (env : Env) (method : String) (token : String)
  | deny (method : String) (token : String)
  deriving Repr

/-- The store after one handler call. -/
def StoreOp.apply (catalog : String → Option MeetingType) (st : Store) : StoreOp → Store
  | .book env method body => (handleBooking catalog env method body st).store
  | .approve env method token => (handleApprove env method token st).store
  | .deny method token => (handleDeny method token st).store

/-- The store after a sequence of handler calls, run one after another. -/
def runOps (catalog : String → Option MeetingType) (st : Store) (ops : List StoreOp) : Store :=
  ops.foldl (StoreOp.apply catalog) st

/-! ## Specification-side notions -/

/-- The half-open overlap rule for one blocked range, the range anchored on the calendar
date of `start`: both clock strings parse, `start < blockEnd` and `end > blockStart`. -/
def hitsBlock (start end_ : Time) (block : TimeRange) : Prop :=
  ∃ bs be, parseClock block.Start = some bs ∧ parseClock block.End = some be ∧
    start.unixNano < (Date start.Year start.Month start.Day be.Hour be.Minute 0 0).unixNano ∧
    (Date start.Year start.Month start.Day bs.Hour bs.Minute 0 0).unixNano < end_.unixNano

/-- The daily-window rule: the window anchored on the date of `start` exists and
`dailyStart <= start`, `end <= dailyEnd`. -/
def withinWindow (start end_ : Time) (meetingType : MeetingType) : Prop :=
  ∃ ds de, buildDailyWindow start meetingType = (ds, de, true) ∧
    ds.unixNano ≤ start.unixNano ∧ end_.unixNano ≤ de.unixNano

/-- The instant 00:00 UTC of the calendar day an instant falls on, in nanoseconds. -/
def startOfDay (t : Time) : Int := t.unixNano / nsPerDay * nsPerDay

/-- Number of candidate slot starts `slotStart + 10 min * k` whose slot ends at or before
`dailyEnd`. -/
def slotCount (meetingDuration : Int) (dailyEnd slotStart : Time) : Nat :=
  ((dailyEnd.unixNano - (slotStart.unixNano + meetingDuration)) / (10 * Minute) + 1).toNat

/-- The candidate slot starts `slotStart + 10 min * k` for `k < n`, in increasing order. -/
def candidates (slotStart : Time) (n : Nat) : List Time :=
  (List.range n).map (fun (k : Nat) => slotStart.Add (10 * Minute * (k : Int)))

/-- The slot emitted for a start time. -/
def slotAt (s : Time) : TimeSlot := { Time := s.Format1504, Available := true }

/-- The slots the engine is specified to emit from `slotStart`: the candidates that overlap
no blocked range, in order. -/
def expectedSlots (meetingType : MeetingType) (meetingDuration : Int) (dailyEnd slotStart : Time) :
    List TimeSlot :=
  ((candidates slotStart (slotCount meetingDuration dailyEnd slotStart)).filter
    (fun s => !overlapsBlockedRange s (s.Add meetingDuration) meetingType)).map slotAt

/-- No request of the store with token `t` is still pending. -/
def NoPending (t : String) (st : Store) : Prop :=
  ∀ r ∈ st.pendingRequests, r.Token = t → r.Status ≠ "pending"

/-- No two requests of the store share a token. -/
def UniqueTokens (st : Store) : Prop :=
  (st.pendingRequests.map (fun r => r.Token)).Nodup

/-- The response of `handleApprove` and `handleDeny` when the scan finds no pending request. -/
def notFoundOrProcessed : Response :=
  .error "Request not found or already processed" 404

/-! ## Sample inputs for the scenarios -/

/-- Clock and random readings of one handler call: the random bytes 0, 1, ..., 31 and the
instant 2026-03-01 12:00:00 UTC. -/
def sampleEnv : Env :=
  { randomBytes := List.range 32
    idClockUnix := Date 2026 3 1 12 0 0 0
    idClockNano := Date 2026 3 1 12 0 0 0
    createdAt := Date 2026 3 1 12 0 0 0 }

/-- A booking of the 40-minute catalog type for 2026-03-09 13:20. -/
def sampleBooking : BookingRequest :=
  { MeetingTypeID := "gdc-pleasant-talk", Name := "Ada", Email := "ada@example.org",
    Company := "", Role := "", Date := "2026-03-09", Time := "13:20", Timezone := "UTC",
    DiscussionTopics := [], DiscussionDetails := "Engines" }

/-- The token `generateToken` returns for the random bytes of `sampleEnv`. -/
def sampleToken : String := generateToken sampleEnv.randomBytes

/-- The store after submitting `sampleBooking` to the empty store. -/
def submittedStore : Store :=
  (handleBooking meetingTypes sampleEnv "POST" (some sampleBooking)
    { appointments := [], pendingRequests := [] }).store

/-- The store after approving the request of `submittedStore`. -/
def approvedStore : Store :=
  (handleApprove sampleEnv "POST" sampleToken submittedStore).store

/-! ## Lock discipline and identifier scenarios -/

/-- Whether some notification call of the trace is made while the store lock is held;
`held` tells whether the lock is held when the trace starts. -/
def notifiesWhileLocked : Bool → List Effect → Bool
  | _, [] => false
  | _, .lock :: rest => notifiesWhileLocked true rest
  | _, .unlock :: rest => notifiesWhileLocked false rest
  | held, .sendAdminNotification _ :: rest => held || notifiesWhileLocked held rest
  | held, .sendConfirmationEmail _ :: rest => held || notifiesWhileLocked held rest
  | held, .sendDeclineEmail _ :: rest => held || notifiesWhileLocked held rest

/-- Clock and random readings of a first submission: both clock readings of `generateID`
fall in the second 2026-03-01 12:00:00, at 0.1 s and 0.2 s. -/
def firstCallEnv : Env :=
  { randomBytes := List.range 32
    idClockUnix := Date 2026 3 1 12 0 0 100000000
    idClockNano := Date 2026 3 1 12 0 0 200000000
    createdAt := Date 2026 3 1 12 0 0 250000000 }

/-- Clock and random readings of a later submission: every reading is later than those of
`firstCallEnv`; the second reading of `generateID` falls one second after that of the first
call. -/
def secondCallEnv : Env :=
  { randomBytes := List.replicate 32 255
    idClockUnix := Date 2026 3 1 12 0 0 300000000
    idClockNano := Date 2026 3 1 12 0 1 200000000
    createdAt := Date 2026 3 1 12 0 1 250000000 }

/-- The store after two submissions of `sampleBooking`, read with `firstCallEnv` and then
`secondCallEnv`. -/
def twiceSubmittedStore : Store :=
  (handleBooking meetingTypes secondCallEnv "POST" (some sampleBooking)
    (handleBooking meetingTypes firstCallEnv "POST" (some sampleBooking)
      { appointments := [], pendingRequests := [] }).store).store

/-! ## Lemmas on the calendar model -/

set_option maxHeartbeats 4000000 in
theorem dayOfYear_bounds (doe yoe : Int) (h0 : 0 ≤ doe) (h1 : doe < 146097)
    (hy : yoe = (doe - doe / 1460 + doe / 36524 - doe / 146096) / 365) :
    0 ≤ doe - (365 * yoe + yoe / 4 - yoe / 100) ∧ doe - (365 * yoe + yoe / 4 - yoe / 100) ≤ 365
      ∧ 0 ≤ yoe ∧ yoe ≤ 399 := by
  obtain ⟨g, hg⟩ : ∃ g, g = doe / 1460 := ⟨_, rfl⟩
  have hg1 : 0 ≤ g ∧ g ≤ 100 := by omega
  rw [← hg] at hy
  obtain ⟨hg0, hg2⟩ := hg1
  have hc : doe / 36524 = 0 ∨ doe / 36524 = 1 ∨ doe / 36524 = 2 ∨ doe / 36524 = 3
      ∨ doe / 36524 = 4 := by omega
  interval_cases g <;> omega

theorem daysFromCivil_parts (era yoe doy : Int) (hy0 : 0 ≤ yoe) (hy1 : yoe ≤ 399)
    (hd0 : 0 ≤ doy) (hd1 : doy ≤ 365) :
    daysFromCivil
      (if (if (5 * doy + 2) / 153 < 10 then (5 * doy + 2) / 153 + 3
          else (5 * doy + 2) / 153 - 9) ≤ 2 then yoe + era * 400 + 1 else yoe + era * 400)
      (if (5 * doy + 2) / 153 < 10 then (5 * doy + 2) / 153 + 3 else (5 * doy + 2) / 153 - 9)
      (doy - (153 * ((5 * doy + 2) / 153) + 2) / 5 + 1)
    = era * 146097 + (yoe * 365 + yoe / 4 - yoe / 100 + doy) - 719468 := by
  have hera : (yoe + era * 400) / 400 = era := by omega
  obtain ⟨mp, hmp⟩ : ∃ mp, mp = (5 * doy + 2) / 153 := ⟨_, rfl⟩
  rw [← hmp]
  have hmp0 : 0 ≤ mp := by omega
  have hmp1 : mp ≤ 11 := by omega
  unfold daysFromCivil
  by_cases h10 : mp < 10
  · have e1 : ¬ (mp + 3 ≤ 2) := by omega
    have e2 : mp + 3 > 2 := by omega
    simp only [if_pos h10, if_neg e1, if_pos e2, hera]
    omega
  · have e1 : mp - 9 ≤ 2 := by omega
    have e2 : ¬ (mp - 9 > 2) := by omega
    have e3 : yoe + era * 400 + 1 - 1 = yoe + era * 400 := by omega
    simp only [if_neg h10, if_pos e1, if_neg e2, e3, hera]
    omega

theorem daysFromCivil_civilFromDays (z : Int) :
    daysFromCivil (civilFromDays z).1 (civilFromDays z).2.1 (civilFromDays z).2.2 = z := by
  obtain ⟨doe, hdoe⟩ : ∃ doe, doe = z + 719468 - (z + 719468) / 146097 * 146097 := ⟨_, rfl⟩
  obtain ⟨yoe, hyoe⟩ : ∃ yoe, yoe = (doe - doe / 1460 + doe / 36524 - doe / 146096) / 365 :=
    ⟨_, rfl⟩
  obtain ⟨hb1, hb2, hb3, hb4⟩ := dayOfYear_bounds doe yoe (by omega) (by omega) hyoe
  simp only [civilFromDays, ← hdoe, ← hyoe]
  rw [daysFromCivil_parts _ yoe _ hb3 hb4 hb1 hb2]
  omega

theorem civilFromDays_month (z : Int) :
    1 ≤ (civilFromDays z).2.1 ∧ (civilFromDays z).2.1 ≤ 12 := by
  obtain ⟨doe, hdoe⟩ : ∃ doe, doe = z + 719468 - (z + 719468) / 146097 * 146097 := ⟨_, rfl⟩
  obtain ⟨yoe, hyoe⟩ : ∃ yoe, yoe = (doe - doe / 1460 + doe / 36524 - doe / 146096) / 365 :=
    ⟨_, rfl⟩
  obtain ⟨hb1, hb2, hb3, hb4⟩ := dayOfYear_bounds doe yoe (by omega) (by omega) hyoe
  simp only [civilFromDays, ← hdoe, ← hyoe]
  split <;> omega

theorem Date_civil (t : Time) (hour min sec nsec : Int) :
    Date t.Year t.Month t.Day hour min sec nsec
      = ⟨startOfDay t + hour * Hour + min * Minute + sec * 1000000000 + nsec⟩ := by
  obtain ⟨hm1, hm2⟩ := civilFromDays_month (t.unixNano / nsPerDay)
  have hrt := daysFromCivil_civilFromDays (t.unixNano / nsPerDay)
  unfold Date Time.Year Time.Month Time.Day startOfDay
  have e1 : ((civilFromDays (t.unixNano / nsPerDay)).2.1 - 1) / 12 = 0 := by omega
  have e2 : ((civilFromDays (t.unixNano / nsPerDay)).2.1 - 1) % 12 + 1
      = (civilFromDays (t.unixNano / nsPerDay)).2.1 := by omega
  simp only [e1, e2, add_zero, hrt]

theorem clock_offset_bounds (c : Time) :
    0 ≤ c.Hour * Hour + c.Minute * Minute ∧ c.Hour * Hour + c.Minute * Minute < nsPerDay := by
  unfold Time.Hour Time.Minute Hour Minute nsPerDay
  omega

theorem buildDailyWindow_eq (date : Time) (mt : MeetingType) (startClock endClock : Time)
    (hs : parseClock mt.DailyStart = some startClock)
    (he : parseClock mt.DailyEnd = some endClock) :
    buildDailyWindow date mt =
      (⟨startOfDay date + startClock.Hour * Hour + startClock.Minute * Minute⟩,
       ⟨startOfDay date + endClock.Hour * Hour + endClock.Minute * Minute⟩, true) := by
  unfold buildDailyWindow
  simp only [hs, he, Date_civil]
  simp

theorem buildDailyWindow_same_day (date : Time) (mt : MeetingType) (ds de : Time)
    (hw : buildDailyWindow date mt = (ds, de, true)) :
    ds.unixNano / nsPerDay = date.unixNano / nsPerDay ∧
      de.unixNano / nsPerDay = date.unixNano / nsPerDay := by
  cases hs : parseClock mt.DailyStart with
  | none => simp [buildDailyWindow, hs] at hw
  | some sc =>
    cases he : parseClock mt.DailyEnd with
    | none => simp [buildDailyWindow, hs, he] at hw
    | some ec =>
      rw [buildDailyWindow_eq date mt sc ec hs he] at hw
      simp only [Prod.mk.injEq, and_true] at hw
      obtain ⟨rfl, rfl⟩ := hw
      have h1 := clock_offset_bounds sc
      have h2 := clock_offset_bounds ec
      unfold startOfDay nsPerDay at *
      dsimp only
      constructor <;> omega

/-! ## Lemmas on the time-window helpers -/

theorem overlapsBlockedLoop_iff (start end_ : Time) (blocked : List TimeRange) :
    overlapsBlockedLoop start end_ blocked = true ↔ ∃ b ∈ blocked, hitsBlock start end_ b := by
  induction blocked with
  | nil => simp [overlapsBlockedLoop]
  | cons b rest ih =>
    rw [overlapsBlockedLoop]
    cases hs : parseClock b.Start with
    | none =>
      simp only [ih, List.mem_cons, exists_eq_or_imp]
      constructor
      · exact fun h => Or.inr h
      · rintro (⟨bs, be, h1, _⟩ | h)
        · rw [hs] at h1; cases h1
        · exact h
    | some bs =>
      cases he : parseClock b.End with
      | none =>
        simp only [ih, List.mem_cons, exists_eq_or_imp]
        constructor
        · exact fun h => Or.inr h
        · rintro (⟨bs1, be, _, h2, _⟩ | h)
          · rw [he] at h2; cases h2
          · exact h
      | some be =>
        simp only [List.mem_cons, exists_eq_or_imp]
        by_cases hc : (start.Before (Date start.Year start.Month start.Day be.Hour be.Minute 0 0)
            && end_.After (Date start.Year start.Month start.Day bs.Hour bs.Minute 0 0)) = true
        · simp only [hc, if_true, true_iff]
          left
          simp only [Time.Before, Time.After, Bool.and_eq_true, decide_eq_true_eq] at hc
          exact ⟨bs, be, hs, he, hc.1, hc.2⟩
        · simp only [hc, Bool.false_eq_true, if_false, ih]
          constructor
          · exact fun h => Or.inr h
          · rintro (⟨bs1, be1, h1, h2, h3, h4⟩ | h)
            · exfalso
              apply hc
              rw [hs] at h1; rw [he] at h2
              cases h1; cases h2
              simp only [Time.Before, Time.After, Bool.and_eq_true, decide_eq_true_eq]
              exact ⟨h3, h4⟩
            · exact h

theorem overlapsBlockedRange_iff (start end_ : Time) (mt : MeetingType) :
    overlapsBlockedRange start end_ mt = true ↔ ∃ b ∈ mt.Blocked, hitsBlock start end_ b :=
  overlapsBlockedLoop_iff start end_ mt.Blocked

theorem isWithinDailyWindow_iff (start end_ : Time) (mt : MeetingType) :
    isWithinDailyWindow start end_ mt = true ↔ withinWindow start end_ mt := by
  unfold isWithinDailyWindow withinWindow
  rcases hb : buildDailyWindow start mt with ⟨ds, de, ok⟩
  cases ok
  · simp
  · simp only [Bool.not_true, Bool.false_eq_true, if_false, Time.Before, Time.After,
      decide_eq_true_eq, Prod.mk.injEq, and_true]
    constructor
    · intro h
      refine ⟨ds, de, ⟨rfl, rfl⟩, ?_, ?_⟩
      · by_contra hc
        rw [if_pos (by omega)] at h
        cases h
      · by_contra hc
        by_cases h1 : start.unixNano < ds.unixNano
        · rw [if_pos h1] at h; cases h
        · rw [if_neg h1, if_pos (by omega)] at h; cases h
    · rintro ⟨ds1, de1, ⟨rfl, rfl⟩, h1, h2⟩
      rw [if_neg (by omega), if_neg (by omega)]

/-! ## Lemmas on the slot loop -/

theorem candidates_zero (s : Time) : candidates s 0 = [] := rfl

theorem candidates_succ (s : Time) (n : Nat) :
    candidates s (n + 1) = s :: candidates (s.Add (10 * Minute)) n := by
  unfold candidates
  rw [List.range_succ_eq_map, List.map_cons, List.map_map]
  congr 1
  · simp [Time.Add]
  · apply List.map_congr_left
    intro k _
    simp only [Function.comp, Time.Add, Time.mk.injEq, Nat.succ_eq_add_one, Nat.cast_add,
      Nat.cast_one]
    ring

theorem minutesDuration_slotInterval : minutesDuration slotIntervalMinutes = 10 * Minute := by
  decide

theorem slotLoop_eq (mt : MeetingType) (dur : Int) (de : Time) :
    ∀ (n : Nat) (s : Time) (acc : List TimeSlot), slotCount dur de s = n →
      slotLoop mt dur de s acc = acc ++ expectedSlots mt dur de s := by
  intro n
  induction n with
  | zero =>
    intro s acc hn
    rw [slotLoop, expectedSlots, hn, candidates_zero]
    have hc : ¬ (s.unixNano + dur ≤ de.unixNano) := by
      unfold slotCount Minute at hn
      omega
    have : ((s.Add dur).Before de || (s.Add dur).Equal de) = false := by
      simp only [Time.Add, Time.Before, Time.Equal, Bool.or_eq_false_iff, decide_eq_false_iff_not]
      omega
    simp [this]
  | succ n ih =>
    intro s acc hn
    have hc : s.unixNano + dur ≤ de.unixNano := by
      unfold slotCount Minute at hn
      omega
    have hnext : slotCount dur de (s.Add (10 * Minute)) = n := by
      unfold slotCount Minute Time.Add at *
      simp only at *
      omega
    have hcond : ((s.Add dur).Before de || (s.Add dur).Equal de) = true := by
      simp only [Time.Add, Time.Before, Time.Equal, Bool.or_eq_true, decide_eq_true_eq]
      omega
    have hexp : expectedSlots mt dur de s =
        (if overlapsBlockedRange s (s.Add dur) mt then [] else [slotAt s])
          ++ expectedSlots mt dur de (s.Add (10 * Minute)) := by
      unfold expectedSlots
      rw [hn, hnext, candidates_succ, List.filter_cons]
      cases overlapsBlockedRange s (s.Add dur) mt <;> simp
    rw [slotLoop, if_pos hcond, minutesDuration_slotInterval, hexp]
    cases hov : overlapsBlockedRange s (s.Add dur) mt
    · simp only [hov, Bool.false_eq_true, if_false]
      rw [ih _ _ hnext]
      simp [slotAt]
    · simp only [hov, if_true]
      rw [ih _ _ hnext]
      simp

theorem getAvailableSlots_eq (date : Time) (tz : String) (mt : MeetingType) :
    getAvailableSlots date tz mt =
      if (buildDailyWindow date mt).2.2 then
        expectedSlots mt (minutesDuration mt.DurationMinutes)
          (buildDailyWindow date mt).2.1 (buildDailyWindow date mt).1
      else [] := by
  unfold getAvailableSlots
  rcases hb : buildDailyWindow date mt with ⟨ds, de, ok⟩
  cases ok
  · simp
  · simp only [Bool.not_true, Bool.false_eq_true, if_false, if_true]
    rw [slotLoop_eq mt _ de _ ds [] rfl]
    simp

theorem slotCount_iff (dur : Int) (de s : Time) (k : Nat) :
    k < slotCount dur de s ↔ s.unixNano + 10 * Minute * (k : Int) + dur ≤ de.unixNano := by
  unfold slotCount Minute
  omega

theorem mem_candidates (s ds : Time) (n : Nat) :
    s ∈ candidates ds n ↔ ∃ k : Nat, k < n ∧ s = ds.Add (10 * Minute * (k : Int)) := by
  unfold candidates
  simp only [List.mem_map, List.mem_range]
  constructor
  · rintro ⟨k, hk, rfl⟩
    exact ⟨k, hk, rfl⟩
  · rintro ⟨k, hk, rfl⟩
    exact ⟨k, hk, rfl⟩

/-! ## Availability engine: theorems -/

/-- C1: when the daily window of the meeting type exists for the date, both window ends fall on
the calendar day of the date, and the slots returned by `getAvailableSlots` are the labels of
start times `s` that all satisfy `dailyStart <= s`, `s + duration <= dailyEnd`, and whose
interval hits no well-formed blocked range under the half-open rule. -/
theorem getAvailableSlots_in_window_unblocked (date : Time) (timezone : String)
    (mt : MeetingType) (dailyStart dailyEnd : Time)
    (hw : buildDailyWindow date mt = (dailyStart, dailyEnd, true)) :
    (dailyStart.unixNano / nsPerDay = date.unixNano / nsPerDay ∧
      dailyEnd.unixNano / nsPerDay = date.unixNano / nsPerDay) ∧
    ∃ starts : List Time,
      getAvailableSlots date timezone mt
        = starts.map (fun s => { Time := s.Format1504, Available := true }) ∧
      ∀ s ∈ starts,
        dailyStart.unixNano ≤ s.unixNano ∧
        (s.Add (minutesDuration mt.DurationMinutes)).unixNano ≤ dailyEnd.unixNano ∧
        ∀ b ∈ mt.Blocked, ¬ hitsBlock s (s.Add (minutesDuration mt.DurationMinutes)) b := by
  refine ⟨buildDailyWindow_same_day date mt dailyStart dailyEnd hw,
    (candidates dailyStart
      (slotCount (minutesDuration mt.DurationMinutes) dailyEnd dailyStart)).filter
      (fun s => !overlapsBlockedRange s (s.Add (minutesDuration mt.DurationMinutes)) mt), ?_, ?_⟩
  · rw [getAvailableSlots_eq, hw]
    rfl
  · intro s hs
    rw [List.mem_filter, mem_candidates] at hs
    obtain ⟨⟨k, hk, rfl⟩, hov⟩ := hs
    rw [slotCount_iff] at hk
    refine ⟨?_, ?_, ?_⟩
    · simp only [Time.Add, Minute]
      omega
    · simp only [Time.Add]
      omega
    · intro b hb hhit
      have : overlapsBlockedRange (dailyStart.Add (10 * Minute * (k : Int)))
          ((dailyStart.Add (10 * Minute * (k : Int))).Add (minutesDuration mt.DurationMinutes)) mt
          = true := (overlapsBlockedRange_iff _ _ _).2 ⟨b, hb, hhit⟩
      rw [this] at hov
      cases hov

/-- Witness for C1: the 40-minute catalog type on 2026-03-09. -/
theorem getAvailableSlots_in_window_unblocked_witness :
    ((Date 2026 3 9 9 0 0 0).unixNano / nsPerDay = (Date 2026 3 9 0 0 0 0).unixNano / nsPerDay ∧
      (Date 2026 3 9 17 0 0 0).unixNano / nsPerDay
        = (Date 2026 3 9 0 0 0 0).unixNano / nsPerDay) ∧
    ∃ starts : List Time,
      getAvailableSlots (Date 2026 3 9 0 0 0 0) "UTC" gdcPleasantTalk
        = starts.map (fun s => { Time := s.Format1504, Available := true }) ∧
      ∀ s ∈ starts,
        (Date 2026 3 9 9 0 0 0).unixNano ≤ s.unixNano ∧
        (s.Add (minutesDuration gdcPleasantTalk.DurationMinutes)).unixNano
          ≤ (Date 2026 3 9 17 0 0 0).unixNano ∧
        ∀ b ∈ gdcPleasantTalk.Blocked,
          ¬ hitsBlock s (s.Add (minutesDuration gdcPleasantTalk.DurationMinutes)) b :=
  getAvailableSlots_in_window_unblocked (Date 2026 3 9 0 0 0 0) "UTC" gdcPleasantTalk
    (Date 2026 3 9 9 0 0 0) (Date 2026 3 9 17 0 0 0) (by decide)

/-- C2: when the daily window exists, `getAvailableSlots` returns, in increasing order of `k`,
exactly the slots labelled with `dailyStart + 10 min * k` for the `k` with
`dailyStart + 10 min * k + duration <= dailyEnd` (boundary included) whose interval overlaps no
blocked range, each with `Available = true`; for the 40-minute type blocked 11:45-13:15 on
2026-03-09 there is no slot at 11:40 or 16:30 and the last slot is 16:20. -/
theorem getAvailableSlots_exact (date : Time) (timezone : String)
    (mt : MeetingType) (dailyStart dailyEnd : Time)
    (hw : buildDailyWindow date mt = (dailyStart, dailyEnd, true)) :
    (∃ n : Nat,
      (∀ k : Nat, k < n ↔
        dailyStart.unixNano + 10 * Minute * (k : Int) + minutesDuration mt.DurationMinutes
          ≤ dailyEnd.unixNano) ∧
      getAvailableSlots date timezone mt =
        (((List.range n).map (fun (k : Nat) => dailyStart.Add (10 * Minute * (k : Int)))).filter
          (fun s => !overlapsBlockedRange s (s.Add (minutesDuration mt.DurationMinutes)) mt)).map
          (fun s => { Time := s.Format1504, Available := true })) ∧
    (∀ s : Time, overlapsBlockedRange s (s.Add (minutesDuration mt.DurationMinutes)) mt = true ↔
      ∃ b ∈ mt.Blocked, hitsBlock s (s.Add (minutesDuration mt.DurationMinutes)) b) ∧
    ((∀ slot ∈ getAvailableSlots (Date 2026 3 9 0 0 0 0) timezone gdcPleasantTalk,
        slot.Time ≠ "11:40" ∧ slot.Time ≠ "16:30") ∧
      (getAvailableSlots (Date 2026 3 9 0 0 0 0) timezone gdcPleasantTalk).getLast?
        = some { Time := "16:20", Available := true }) := by
  refine ⟨⟨slotCount (minutesDuration mt.DurationMinutes) dailyEnd dailyStart, ?_, ?_⟩, ?_, ?_⟩
  · intro k
    exact slotCount_iff _ _ _ k
  · rw [getAvailableSlots_eq, hw]
    rfl
  · intro s
    exact overlapsBlockedRange_iff _ _ _
  · rw [getAvailableSlots_eq]
    decide

/-- Witness for C2: the 20-minute catalog type on 2026-03-10. -/
theorem getAvailableSlots_exact_witness :
    (∃ n : Nat,
      (∀ k : Nat, k < n ↔
        (Date 2026 3 10 9 0 0 0).unixNano + 10 * Minute * (k : Int)
          + minutesDuration gdcQuickChat.DurationMinutes
          ≤ (Date 2026 3 10 17 0 0 0).unixNano) ∧
      getAvailableSlots (Date 2026 3 10 0 0 0 0) "UTC" gdcQuickChat =
        (((List.range n).map
            (fun (k : Nat) => (Date 2026 3 10 9 0 0 0).Add (10 * Minute * (k : Int)))).filter
          (fun s => !overlapsBlockedRange s
            (s.Add (minutesDuration gdcQuickChat.DurationMinutes)) gdcQuickChat)).map
          (fun s => { Time := s.Format1504, Available := true })) ∧
    (∀ s : Time,
      overlapsBlockedRange s (s.Add (minutesDuration gdcQuickChat.DurationMinutes)) gdcQuickChat
        = true ↔
      ∃ b ∈ gdcQuickChat.Blocked,
        hitsBlock s (s.Add (minutesDuration gdcQuickChat.DurationMinutes)) b) ∧
    ((∀ slot ∈ getAvailableSlots (Date 2026 3 9 0 0 0 0) "UTC" gdcPleasantTalk,
        slot.Time ≠ "11:40" ∧ slot.Time ≠ "16:30") ∧
      (getAvailableSlots (Date 2026 3 9 0 0 0 0) "UTC" gdcPleasantTalk).getLast?
        = some { Time := "16:20", Available := true }) :=
  getAvailableSlots_exact (Date 2026 3 10 0 0 0 0) "UTC" gdcQuickChat
    (Date 2026 3 10 9 0 0 0) (Date 2026 3 10 17 0 0 0) (by decide)

/-- C3, as stated, fails: on 2026-03-09 the 40-minute type blocked 11:45-13:15 gets no slot
labelled 13:15. -/
theorem getAvailableSlots_no_slot_at_block_end :
    ¬ ∃ slot ∈ getAvailableSlots (Date 2026 3 9 0 0 0 0) "UTC" gdcPleasantTalk,
        slot.Time = "13:15" := by
  rw [getAvailableSlots_eq]
  decide

/-- C3, amended: for every timezone argument the slots of the 40-minute type on 2026-03-09 lie on
the ten-minute grid from 09:00; the last slot before the block is 11:00, the first after it
is 13:20, and no slot is labelled 13:15. -/
theorem getAvailableSlots_pleasant_talk_labels (timezone : String) :
    (getAvailableSlots (Date 2026 3 9 0 0 0 0) timezone gdcPleasantTalk).map (fun slot => slot.Time)
      = ["09:00", "09:10", "09:20", "09:30", "09:40", "09:50", "10:00", "10:10", "10:20",
         "10:30", "10:40", "10:50", "11:00",
         "13:20", "13:30", "13:40", "13:50", "14:00", "14:10", "14:20", "14:30", "14:40",
         "14:50", "15:00", "15:10", "15:20", "15:30", "15:40", "15:50", "16:00", "16:10",
         "16:20"] ∧
    { Time := "13:20", Available := true }
      ∈ getAvailableSlots (Date 2026 3 9 0 0 0 0) timezone gdcPleasantTalk ∧
    ∀ slot ∈ getAvailableSlots (Date 2026 3 9 0 0 0 0) timezone gdcPleasantTalk,
      slot.Time ≠ "13:15" := by
  rw [getAvailableSlots_eq]
  decide

/-! ## Booking validator: theorems -/

/-- C4: `validateBooking` reports the first failing check in the order parse, date range,
daily window, blocked ranges, and accepts with `(start, start + duration)` exactly when no check
fails; 11:50 on 2026-03-09 for the 40-minute type is rejected as overlapping a blocked period. -/
theorem validateBooking_first_failing_check (mt : MeetingType) (date time : String) :
    (parseDateTime (date ++ " " ++ time) = none →
      validateBooking mt date time = .error "Invalid date/time format") ∧
    (∀ start, parseDateTime (date ++ " " ++ time) = some start →
      (dateInRange start mt.DateStart mt.DateEnd = false →
        validateBooking mt date time
          = .error "Selected date is not available for this meeting type") ∧
      (dateInRange start mt.DateStart mt.DateEnd = true →
        ¬ withinWindow start (start.Add (minutesDuration mt.DurationMinutes)) mt →
        validateBooking mt date time = .error "Selected time is outside of available hours") ∧
      (dateInRange start mt.DateStart mt.DateEnd = true →
        withinWindow start (start.Add (minutesDuration mt.DurationMinutes)) mt →
        (∃ b ∈ mt.Blocked, hitsBlock start (start.Add (minutesDuration mt.DurationMinutes)) b) →
        validateBooking mt date time = .error "Selected time overlaps a blocked period") ∧
      (dateInRange start mt.DateStart mt.DateEnd = true →
        withinWindow start (start.Add (minutesDuration mt.DurationMinutes)) mt →
        (¬ ∃ b ∈ mt.Blocked, hitsBlock start (start.Add (minutesDuration mt.DurationMinutes)) b) →
        validateBooking mt date time
          = .ok (start, start.Add (minutesDuration mt.DurationMinutes)))) ∧
    (∀ r, validateBooking mt date time = .ok r ↔
      ∃ start, parseDateTime (date ++ " " ++ time) = some start ∧
        dateInRange start mt.DateStart mt.DateEnd = true ∧
        withinWindow start (start.Add (minutesDuration mt.DurationMinutes)) mt ∧
        (¬ ∃ b ∈ mt.Blocked, hitsBlock start (start.Add (minutesDuration mt.DurationMinutes)) b) ∧
        r = (start, start.Add (minutesDuration mt.DurationMinutes))) ∧
    validateBooking gdcPleasantTalk "2026-03-09" "11:50"
      = .error "Selected time overlaps a blocked period" := by
  refine ⟨?_, ?_, ?_, by decide⟩
  · intro h
    simp [validateBooking, h]
  · intro start h
    refine ⟨?_, ?_, ?_, ?_⟩
    · intro h1
      simp [validateBooking, h, h1]
    · intro h1 h2
      rw [← isWithinDailyWindow_iff, Bool.not_eq_true] at h2
      simp [validateBooking, h, h1, h2]
    · intro h1 h2 h3
      rw [← isWithinDailyWindow_iff] at h2
      rw [← overlapsBlockedRange_iff] at h3
      simp [validateBooking, h, h1, h2, h3]
    · intro h1 h2 h3
      rw [← isWithinDailyWindow_iff] at h2
      rw [← overlapsBlockedRange_iff, Bool.not_eq_true] at h3
      simp [validateBooking, h, h1, h2, h3]
  · intro r
    unfold validateBooking
    cases h : parseDateTime (date ++ " " ++ time) with
    | none => simp
    | some start =>
      simp only [← isWithinDailyWindow_iff, ← overlapsBlockedRange_iff, Bool.not_eq_true,
        Option.some.injEq, exists_eq_left']
      cases h1 : dateInRange start mt.DateStart mt.DateEnd
      · simp
      · cases h2 : isWithinDailyWindow start (start.Add (minutesDuration mt.DurationMinutes)) mt
        · simp
        · cases h3 : overlapsBlockedRange start
            (start.Add (minutesDuration mt.DurationMinutes)) mt
          · simp [eq_comm]
          · simp

theorem dateInRange_iff (date : Time) (startDate endDate : String) :
    dateInRange date startDate endDate = true ↔
      ∃ s e, parseDate startDate = some s ∧ parseDate endDate = some e ∧
        s.unixNano ≤ date.unixNano ∧ date.unixNano ≤ e.unixNano + 23 * Hour := by
  unfold dateInRange
  cases hs : parseDate startDate with
  | none => simp
  | some s =>
    cases he : parseDate endDate with
    | none => simp
    | some e =>
      simp only [Time.Before, Time.After, Time.Add, decide_eq_true_eq, Option.some.injEq,
        exists_and_left, exists_eq_left']
      by_cases h1 : date.unixNano < s.unixNano
      · simp only [h1, if_true, Bool.false_eq_true, false_iff]
        omega
      · by_cases h2 : e.unixNano + 23 * Hour < date.unixNano
        · simp only [h1, h2, if_true, if_false, Bool.false_eq_true, false_iff]
          omega
        · simp only [h1, h2, if_false, true_iff]
          omega

/-- C5, evaluated at the failing input: 23:30 on the end date 2026-03-13 of the catalog range
2026-03-09..2026-03-13 has calendar date 2026-03-13, yet `dateInRange` rejects it (23:00 on the
same date is accepted), and the booking is refused as "date not available". -/
theorem dateInRange_rejects_last_hour_of_end_date :
    parseDateTime ("2026-03-13" ++ " " ++ "23:30") = some (Date 2026 3 13 23 30 0 0) ∧
    ((Date 2026 3 13 23 30 0 0).Year = 2026 ∧ (Date 2026 3 13 23 30 0 0).Month = 3 ∧
      (Date 2026 3 13 23 30 0 0).Day = 13) ∧
    parseDate gdcPleasantTalk.DateEnd = some (Date 2026 3 13 0 0 0 0) ∧
    dateInRange (Date 2026 3 13 23 30 0 0) gdcPleasantTalk.DateStart gdcPleasantTalk.DateEnd
      = false ∧
    dateInRange (Date 2026 3 13 23 0 0 0) gdcPleasantTalk.DateStart gdcPleasantTalk.DateEnd
      = true ∧
    validateBooking gdcPleasantTalk "2026-03-13" "23:30"
      = .error "Selected date is not available for this meeting type" := by
  decide

/-! ## Availability query: theorems -/

/-- C6: a well-formed availability query whose date lies outside `[DateStart, DateEnd + 23h]`, or
whose meeting type has a malformed `DateStart` or `DateEnd`, is answered with the empty slot
list, whatever slot engine the handler would have called. -/
theorem handleAvailability_out_of_range_empty (catalog : String → Option MeetingType)
    (req : AvailabilityRequest) (mt : MeetingType) (date : Time)
    (hid : req.MeetingTypeID ≠ "") (hcat : catalog req.MeetingTypeID = some mt)
    (hdate : parseDate req.Date = some date)
    (hout : parseDate mt.DateStart = none ∨ parseDate mt.DateEnd = none ∨
      ∃ s e, parseDate mt.DateStart = some s ∧ parseDate mt.DateEnd = some e ∧
        (date.unixNano < s.unixNano ∨ e.unixNano + 23 * Hour < date.unixNano)) :
    handleAvailability catalog "POST" (some req) = .slots [] ∧
    ∀ engine : Time → String → MeetingType → List TimeSlot,
      handleAvailabilityWith engine catalog "POST" (some req) = .slots [] := by
  have hr : dateInRange date mt.DateStart mt.DateEnd = false := by
    rw [← Bool.not_eq_true, dateInRange_iff]
    rintro ⟨s, e, hs, he, h1, h2⟩
    rcases hout with h | h | ⟨s1, e1, hs1, he1, h⟩
    · rw [hs] at h; cases h
    · rw [he] at h; cases h
    · rw [hs] at hs1; rw [he] at he1
      cases hs1; cases he1
      omega
  have key : ∀ engine : Time → String → MeetingType → List TimeSlot,
      handleAvailabilityWith engine catalog "POST" (some req) = .slots [] := by
    intro engine
    simp [handleAvailabilityWith, hid, hcat, hdate, hr]
  exact ⟨key getAvailableSlots, key⟩

/-- Witness for C6: the day after the catalog range ends. -/
theorem handleAvailability_out_of_range_empty_witness :
    handleAvailability meetingTypes "POST"
        (some { Date := "2026-03-14", Timezone := "UTC", MeetingTypeID := "gdc-lunch" })
      = .slots [] ∧
    ∀ engine : Time → String → MeetingType → List TimeSlot,
      handleAvailabilityWith engine meetingTypes "POST"
        (some { Date := "2026-03-14", Timezone := "UTC", MeetingTypeID := "gdc-lunch" })
      = .slots [] :=
  handleAvailability_out_of_range_empty meetingTypes
    { Date := "2026-03-14", Timezone := "UTC", MeetingTypeID := "gdc-lunch" }
    gdcLunch (Date 2026 3 14 0 0 0 0) (by decide) (by decide) (by decide)
    (Or.inr (Or.inr ⟨Date 2026 3 9 0 0 0 0, Date 2026 3 13 0 0 0 0, by decide, by decide,
      Or.inr (by decide)⟩))

/-! ## Request store: lemmas -/

theorem findPending_eq_none (t : String) (l : List PendingRequest) :
    findPending t l = none ↔ ∀ r ∈ l, ¬ (r.Token = t ∧ r.Status = "pending") := by
  induction l with
  | nil => simp [findPending]
  | cons a rest ih =>
    rw [findPending]
    by_cases h : a.Token = t ∧ a.Status = "pending"
    · simp only [h, and_self, if_true, List.mem_cons, forall_eq_or_imp, not_true_eq_false,
        false_and]
      simp
    · simp only [h, if_false, Option.map_eq_none', ih, List.mem_cons, forall_eq_or_imp,
        not_false_eq_true, true_and]

theorem findPending_eq_some (t : String) (l : List PendingRequest) (i : Nat)
    (r : PendingRequest) (h : findPending t l = some (i, r)) :
    l[i]? = some r ∧ r.Token = t ∧ r.Status = "pending" := by
  induction l generalizing i with
  | nil => simp [findPending] at h
  | cons a rest ih =>
    rw [findPending] at h
    by_cases hc : a.Token = t ∧ a.Status = "pending"
    · rw [if_pos hc] at h
      simp only [Option.some.injEq, Prod.mk.injEq] at h
      obtain ⟨rfl, rfl⟩ := h
      exact ⟨by simp, hc.1, hc.2⟩
    · rw [if_neg hc] at h
      cases hf : findPending t rest with
      | none => rw [hf] at h; simp at h
      | some p =>
        rw [hf] at h
        simp only [Option.map_some', Option.some.injEq, Prod.mk.injEq] at h
        obtain ⟨rfl, rfl⟩ := h
        have := ih p.1 (by rw [hf])
        simpa using this

theorem set_status_noPending (t status : String) (hst : status ≠ "pending")
    (l : List PendingRequest) (i : Nat) (r : PendingRequest)
    (hu : (l.map (fun r => r.Token)).Nodup) (h : findPending t l = some (i, r)) :
    ∀ x ∈ l.set i { r with Status := status }, x.Token = t → x.Status ≠ "pending" := by
  induction l generalizing i with
  | nil => simp [findPending] at h
  | cons a rest ih =>
    rw [findPending] at h
    rw [List.map_cons, List.nodup_cons] at hu
    by_cases hc : a.Token = t ∧ a.Status = "pending"
    · rw [if_pos hc] at h
      simp only [Option.some.injEq, Prod.mk.injEq] at h
      obtain ⟨rfl, rfl⟩ := h
      intro x hx hxt
      rw [List.set_cons_zero, List.mem_cons] at hx
      rcases hx with rfl | hx
      · exact hst
      · exfalso
        apply hu.1
        rw [List.mem_map]
        exact ⟨x, hx, by rw [hxt, hc.1]⟩
    · rw [if_neg hc] at h
      cases hf : findPending t rest with
      | none => rw [hf] at h; simp at h
      | some p =>
        rw [hf] at h
        simp only [Option.map_some', Option.some.injEq, Prod.mk.injEq] at h
        obtain ⟨rfl, rfl⟩ := h
        intro x hx hxt
        rw [List.set_cons_succ, List.mem_cons] at hx
        rcases hx with rfl | hx
        · intro hp
          exact hc ⟨hxt, hp⟩
        · exact ih p.1 hu.2 (by rw [hf]) x hx hxt

theorem handleApprove_of_noPending (env : Env) (t : String) (st : Store) (ht : t ≠ "")
    (h : NoPending t st) :
    handleApprove env "POST" t st = ⟨notFoundOrProcessed, st, [.lock, .unlock]⟩ := by
  have hf : findPending t st.pendingRequests = none := by
    rw [findPending_eq_none]
    intro r hr hc
    exact h r hr hc.1 hc.2
  simp [handleApprove, ht, hf, notFoundOrProcessed]

theorem handleDeny_of_noPending (t : String) (st : Store) (ht : t ≠ "")
    (h : NoPending t st) :
    handleDeny "POST" t st = ⟨notFoundOrProcessed, st, [.lock, .unlock]⟩ := by
  have hf : findPending t st.pendingRequests = none := by
    rw [findPending_eq_none]
    intro r hr hc
    exact h r hr hc.1 hc.2
  simp [handleDeny, ht, hf, notFoundOrProcessed]

theorem handleApprove_success (env : Env) (method t : String) (st : Store)
    (hok : (handleApprove env method t st).response.isError = false) :
    method = "POST" ∧ t ≠ "" ∧ ∃ i r, findPending t st.pendingRequests = some (i, r) := by
  unfold handleApprove at hok
  by_cases hm : method = "POST"
  · by_cases ht : t = ""
    · simp [hm, ht, Response.isError] at hok
    · cases hf : findPending t st.pendingRequests with
      | none => simp [hm, ht, hf, Response.isError] at hok
      | some p => exact ⟨hm, ht, p.1, p.2, rfl⟩
  · simp [hm, Response.isError] at hok

theorem handleDeny_success (method t : String) (st : Store)
    (hok : (handleDeny method t st).response.isError = false) :
    method = "POST" ∧ t ≠ "" ∧ ∃ i r, findPending t st.pendingRequests = some (i, r) := by
  unfold handleDeny at hok
  by_cases hm : method = "POST"
  · by_cases ht : t = ""
    · simp [hm, ht, Response.isError] at hok
    · cases hf : findPending t st.pendingRequests with
      | none => simp [hm, ht, hf, Response.isError] at hok
      | some p => exact ⟨hm, ht, p.1, p.2, rfl⟩
  · simp [hm, Response.isError] at hok

theorem handleApprove_store (env : Env) (t : String) (st : Store) (ht : t ≠ "") (i : Nat)
    (r : PendingRequest) (hf : findPending t st.pendingRequests = some (i, r)) :
    (handleApprove env "POST" t st).store.pendingRequests
      = st.pendingRequests.set i { r with Status := "approved" } ∧
    ∃ a : Appointment,
      (handleApprove env "POST" t st).store.appointments = st.appointments ++ [a] ∧
      a.StartTime = (parseDateTime (r.RequestedDate ++ " " ++ r.RequestedTime)).getD zeroTime ∧
      a.EndTime = a.StartTime.Add (minutesDuration r.DurationMinutes) := by
  simp [handleApprove, ht, hf, newAppointment]

theorem handleDeny_store (t : String) (st : Store) (ht : t ≠ "") (i : Nat)
    (r : PendingRequest) (hf : findPending t st.pendingRequests = some (i, r)) :
    (handleDeny "POST" t st).store.pendingRequests
      = st.pendingRequests.set i { r with Status := "denied" } ∧
    (handleDeny "POST" t st).store.appointments = st.appointments := by
  simp [handleDeny, ht, hf]

theorem handleBooking_cases (catalog : String → Option MeetingType) (env : Env)
    (method : String) (body : Option BookingRequest) (st : Store) :
    ((handleBooking catalog env method body st).store = st ∧
      (handleBooking catalog env method body st).response.isError = true) ∨
    ∃ req mt startTime endTime, method = "POST" ∧ body = some req ∧
      catalog req.MeetingTypeID = some mt ∧
      validateBooking mt req.Date req.Time = .ok (startTime, endTime) ∧
      handleBooking catalog env method body st =
        ⟨.booked (generateID env.idClockUnix env.idClockNano),
         { st with pendingRequests := st.pendingRequests
            ++ [newPendingRequest env req mt (generateToken env.randomBytes)] },
         [.lock, .unlock,
          .sendAdminNotification (newPendingRequest env req mt (generateToken env.randomBytes))]⟩ := by
  unfold handleBooking
  by_cases hm : method = "POST"
  · simp only [hm, ne_eq, not_true_eq_false, if_false]
    cases body with
    | none => left; simp [Response.isError]
    | some req =>
      by_cases hid : req.MeetingTypeID = ""
      · left; simp [hid, Response.isError]
      · simp only [hid, if_false]
        cases hc : catalog req.MeetingTypeID with
        | none => left; simp [Response.isError]
        | some mt =>
          by_cases hreq : req.Name = "" ∨ req.Email = "" ∨ req.Date = "" ∨ req.Time = ""
              ∨ req.DiscussionDetails = ""
          · left
            simp only [if_pos hreq]
            simp [Response.isError]
          · simp only [if_neg hreq]
            cases hv : validateBooking mt req.Date req.Time with
            | error msg => left; simp [Response.isError]
            | ok p =>
              right
              exact ⟨req, mt, p.1, p.2, trivial, rfl, hc, hv, rfl⟩
  · left; simp [hm, Response.isError]

theorem noPending_apply (catalog : String → Option MeetingType) (t : String) (st : Store)
    (op : StoreOp) (hop : ∀ e m b, op = .book e m b → generateToken e.randomBytes ≠ t)
    (h : NoPending t st) : NoPending t (op.apply catalog st) := by
  cases op with
  | book e m b =>
    have hne := hop e m b rfl
    show NoPending t (handleBooking catalog e m b st).store
    rcases handleBooking_cases catalog e m b st with ⟨hs, _⟩ | ⟨req, mt, s1, e1, _, _, _, _, hb⟩
    · rw [hs]; exact h
    · rw [hb]
      intro x hx hxt
      simp only [List.mem_append, List.mem_singleton] at hx
      rcases hx with hx | rfl
      · exact h x hx hxt
      · exact absurd hxt hne
  | approve e m tok =>
    show NoPending t (handleApprove e m tok st).store
    unfold handleApprove
    by_cases hm : m = "POST"
    · by_cases ht : tok = ""
      · simp only [hm, ht, ne_eq, not_true_eq_false, if_false, if_true]; exact h
      · simp only [hm, ht, ne_eq, not_true_eq_false, if_false]
        cases hf : findPending tok st.pendingRequests with
        | none => exact h
        | some p =>
          intro x hx hxt
          rcases List.mem_or_eq_of_mem_set hx with hx | rfl
          · exact h x hx hxt
          · simp
    · simp only [hm, ne_eq, not_false_eq_true, if_true]; exact h
  | deny m tok =>
    show NoPending t (handleDeny m tok st).store
    unfold handleDeny
    by_cases hm : m = "POST"
    · by_cases ht : tok = ""
      · simp only [hm, ht, ne_eq, not_true_eq_false, if_false, if_true]; exact h
      · simp only [hm, ht, ne_eq, not_true_eq_false, if_false]
        cases hf : findPending tok st.pendingRequests with
        | none => exact h
        | some p =>
          intro x hx hxt
          rcases List.mem_or_eq_of_mem_set hx with hx | rfl
          · exact h x hx hxt
          · simp
    · simp only [hm, ne_eq, not_false_eq_true, if_true]; exact h

theorem noPending_runOps (catalog : String → Option MeetingType) (t : String)
    (ops : List StoreOp) :
    ∀ st : Store, (∀ op ∈ ops, ∀ e m b, op = .book e m b → generateToken e.randomBytes ≠ t) →
      NoPending t st → NoPending t (runOps catalog st ops) := by
  induction ops with
  | nil => intro st _ h; exact h
  | cons op rest ih =>
    intro st hops h
    unfold runOps
    rw [List.foldl_cons]
    apply ih
    · intro op1 hop1
      exact hops op1 (List.mem_cons_of_mem _ hop1)
    · exact noPending_apply catalog t st op (hops op (List.mem_cons_self _ _)) h

theorem validateBooking_ok (mt : MeetingType) (date time : String) (s e : Time)
    (h : validateBooking mt date time = .ok (s, e)) :
    parseDateTime (date ++ " " ++ time) = some s ∧
      e = s.Add (minutesDuration mt.DurationMinutes) := by
  unfold validateBooking at h
  cases hp : parseDateTime (date ++ " " ++ time) with
  | none => rw [hp] at h; simp at h
  | some start =>
    rw [hp] at h
    simp only at h
    split_ifs at h
    simp only [Except.ok.injEq, Prod.mk.injEq] at h
    obtain ⟨rfl, rfl⟩ := h
    exact ⟨rfl, rfl⟩

theorem meetingTypes_duration (id : String) (m : MeetingType) (h : meetingTypes id = some m) :
    minutesDuration m.DurationMinutes = m.DurationMinutes * Minute := by
  unfold meetingTypes at h
  split_ifs at h <;> (cases h; decide)

theorem generateToken_ne_empty (b : List Nat) (hb : b.length = 32) : generateToken b ≠ "" := by
  intro h
  cases b with
  | nil => simp at hb
  | cons x rest =>
    have h2 : (generateToken (x :: rest)).data = [] := by rw [h]
    simp [generateToken, hexEncode] at h2

/-! ## Request store: theorems -/

/-- C7: in a store where no two requests share a token, once `Approve(t)` or `Deny(t)` has
succeeded (which needs `t` to be the token of a pending request), every later `Approve(t)` and `Deny(t)`, after any further handler calls that submit
no request with token `t`, answers "Request not found or already processed" and leaves the
store (appointments and every request) unchanged. -/
theorem approve_deny_at_most_once (catalog : String → Option MeetingType) (env : Env)
    (method t : String) (st : Store) (approveFirst : Bool)
    (huniq : UniqueTokens st)
    (first : Outcome)
    (hfirst : first = if approveFirst then handleApprove env method t st
      else handleDeny method t st)
    (hok : first.response.isError = false)
    (later : List StoreOp)
    (hlater : ∀ op ∈ later, ∀ e m b, op = .book e m b → generateToken e.randomBytes ≠ t)
    (env2 : Env) :
    (handleApprove env2 "POST" t (runOps catalog first.store later)).response
        = .error "Request not found or already processed" 404 ∧
    (handleApprove env2 "POST" t (runOps catalog first.store later)).store
        = runOps catalog first.store later ∧
    (handleDeny "POST" t (runOps catalog first.store later)).response
        = .error "Request not found or already processed" 404 ∧
    (handleDeny "POST" t (runOps catalog first.store later)).store
        = runOps catalog first.store later := by
  have hfacts : t ≠ "" ∧ NoPending t first.store := by
    cases approveFirst with
    | true =>
      simp only [if_true] at hfirst
      subst hfirst
      obtain ⟨hm, ht, i, r, hf⟩ := handleApprove_success env method t st hok
      subst hm
      refine ⟨ht, ?_⟩
      unfold NoPending
      rw [(handleApprove_store env t st ht i r hf).1]
      exact set_status_noPending t "approved" (by decide) _ i r huniq hf
    | false =>
      simp only [Bool.false_eq_true, if_false] at hfirst
      subst hfirst
      obtain ⟨hm, ht, i, r, hf⟩ := handleDeny_success method t st hok
      subst hm
      refine ⟨ht, ?_⟩
      unfold NoPending
      rw [(handleDeny_store t st ht i r hf).1]
      exact set_status_noPending t "denied" (by decide) _ i r huniq hf
  obtain ⟨ht, hnp⟩ := hfacts
  have hnp2 := noPending_runOps catalog t later first.store hlater hnp
  rw [handleApprove_of_noPending env2 t _ ht hnp2, handleDeny_of_noPending t _ ht hnp2]
  exact ⟨rfl, rfl, rfl, rfl⟩

/-- Witness for C7: submit, approve, then deny with the same token: the denial is refused, no
second appointment appears and the request stays approved. -/
theorem approve_deny_at_most_once_witness :
    (handleApprove sampleEnv "POST" sampleToken
        (runOps meetingTypes (handleApprove sampleEnv "POST" sampleToken submittedStore).store
          [])).response
        = .error "Request not found or already processed" 404 ∧
    (handleApprove sampleEnv "POST" sampleToken
        (runOps meetingTypes (handleApprove sampleEnv "POST" sampleToken submittedStore).store
          [])).store
        = runOps meetingTypes (handleApprove sampleEnv "POST" sampleToken submittedStore).store [] ∧
    (handleDeny "POST" sampleToken
        (runOps meetingTypes (handleApprove sampleEnv "POST" sampleToken submittedStore).store
          [])).response
        = .error "Request not found or already processed" 404 ∧
    (handleDeny "POST" sampleToken
        (runOps meetingTypes (handleApprove sampleEnv "POST" sampleToken submittedStore).store
          [])).store
        = runOps meetingTypes (handleApprove sampleEnv "POST" sampleToken submittedStore).store [] :=
  approve_deny_at_most_once meetingTypes sampleEnv "POST" sampleToken submittedStore true
    (by unfold UniqueTokens; decide)
    (handleApprove sampleEnv "POST" sampleToken submittedStore) rfl (by decide) []
    (by intro op hop; cases hop) sampleEnv

/-- C8, as stated, fails: in the store where the sample request has been approved, `Approve`
and `Deny` give for its token the very response they give for a token no request carries. -/
theorem approve_deny_processed_same_as_unknown :
    (∃ r ∈ approvedStore.pendingRequests, r.Token = sampleToken ∧ r.Status = "approved") ∧
    (∀ r ∈ approvedStore.pendingRequests, r.Token ≠ "no-such-token") ∧
    (handleApprove sampleEnv "POST" sampleToken approvedStore).response
      = (handleApprove sampleEnv "POST" "no-such-token" approvedStore).response ∧
    (handleDeny "POST" sampleToken approvedStore).response
      = (handleDeny "POST" "no-such-token" approvedStore).response := by
  decide

/-- C8, amended: for a token `t` whose request has already been approved or denied (no request
with that token still pending) and a token `u` that matches no request, `Approve` and `Deny`
return one and the same response, status 404 "Request not found or already processed". -/
theorem approve_deny_processed_or_unknown (env : Env) (st : Store) (t u : String)
    (ht : t ≠ "") (hu : u ≠ "")
    (_hproc : ∃ r ∈ st.pendingRequests,
      r.Token = t ∧ (r.Status = "approved" ∨ r.Status = "denied"))
    (hnp : NoPending t st)
    (hunk : ∀ r ∈ st.pendingRequests, r.Token ≠ u) :
    (handleApprove env "POST" t st).response
      = .error "Request not found or already processed" 404 ∧
    (handleApprove env "POST" u st).response
      = .error "Request not found or already processed" 404 ∧
    (handleDeny "POST" t st).response
      = .error "Request not found or already processed" 404 ∧
    (handleDeny "POST" u st).response
      = .error "Request not found or already processed" 404 := by
  have hnu : NoPending u st := fun r hr hru => absurd hru (hunk r hr)
  rw [handleApprove_of_noPending env t st ht hnp, handleApprove_of_noPending env u st hu hnu,
    handleDeny_of_noPending t st ht hnp, handleDeny_of_noPending u st hu hnu]
  exact ⟨rfl, rfl, rfl, rfl⟩

/-- Witness for C8 amended: the approved sample request and an unknown token. -/
theorem approve_deny_processed_or_unknown_witness :
    (handleApprove sampleEnv "POST" sampleToken approvedStore).response
      = .error "Request not found or already processed" 404 ∧
    (handleApprove sampleEnv "POST" "no-such-token" approvedStore).response
      = .error "Request not found or already processed" 404 ∧
    (handleDeny "POST" sampleToken approvedStore).response
      = .error "Request not found or already processed" 404 ∧
    (handleDeny "POST" "no-such-token" approvedStore).response
      = .error "Request not found or already processed" 404 :=
  approve_deny_processed_or_unknown sampleEnv approvedStore sampleToken "no-such-token"
    (by decide) (by decide) (by decide) (by unfold NoPending; decide) (by decide)

/-- C9: for the pending request `pr` that a successful booking submission (real catalog, token
from 32 random bytes) appends, and any later store in which `Approve` matches `pr`, the
appointment `Approve` appends starts at the instant the validator computed for the requested
date and time, ends at the validator's end time, and lasts exactly `DurationMinutes` minutes. -/
theorem approve_appointment_round_trip (env : Env) (req : BookingRequest) (st : Store)
    (pr : PendingRequest)
    (hrand : env.randomBytes.length = 32)
    (hbook : (handleBooking meetingTypes env "POST" (some req) st).store.pendingRequests
      = st.pendingRequests ++ [pr])
    (env2 : Env) (st2 : Store) (i : Nat)
    (hfind : findPending pr.Token st2.pendingRequests = some (i, pr)) :
    ∃ (m : MeetingType) (startTime endTime : Time) (a : Appointment),
      meetingTypes req.MeetingTypeID = some m ∧
      validateBooking m req.Date req.Time = .ok (startTime, endTime) ∧
      (handleApprove env2 "POST" pr.Token st2).store.appointments = st2.appointments ++ [a] ∧
      a.StartTime = startTime ∧
      a.EndTime = endTime ∧
      a.EndTime.unixNano - a.StartTime.unixNano = m.DurationMinutes * Minute := by
  rcases handleBooking_cases meetingTypes env "POST" (some req) st with
    ⟨hs, _⟩ | ⟨req1, m, startTime, endTime, _, hreq, hm, hv, hb⟩
  · rw [hs] at hbook
    simp at hbook
  · simp only [Option.some.injEq] at hreq
    subst hreq
    rw [hb] at hbook
    simp only [List.append_cancel_left_eq, List.cons.injEq, and_true] at hbook
    subst hbook
    obtain ⟨hparse, hend⟩ := validateBooking_ok m req.Date req.Time startTime endTime hv
    have htok : (newPendingRequest env req m (generateToken env.randomBytes)).Token ≠ "" :=
      generateToken_ne_empty env.randomBytes hrand
    obtain ⟨_, a, happ, hstart, hendA⟩ :=
      handleApprove_store env2 _ st2 htok i _ hfind
    have hs2 : a.StartTime = startTime := by
      rw [hstart]
      show (parseDateTime (req.Date ++ " " ++ req.Time)).getD zeroTime = startTime
      rw [hparse]
      rfl
    have hdur : minutesDuration m.DurationMinutes = m.DurationMinutes * Minute :=
      meetingTypes_duration _ m hm
    refine ⟨m, startTime, endTime, a, hm, hv, happ, hs2, ?_, ?_⟩
    · rw [hendA, hs2, hend]
      rfl
    · rw [hendA, hs2]
      show startTime.unixNano + minutesDuration m.DurationMinutes - startTime.unixNano = _
      rw [hdur]
      omega

/-- Witness for C9: the sample booking, approved in the store right after its submission. -/
theorem approve_appointment_round_trip_witness :
    ∃ (m : MeetingType) (startTime endTime : Time) (a : Appointment),
      meetingTypes sampleBooking.MeetingTypeID = some m ∧
      validateBooking m sampleBooking.Date sampleBooking.Time = .ok (startTime, endTime) ∧
      (handleApprove sampleEnv "POST"
          (newPendingRequest sampleEnv sampleBooking gdcPleasantTalk sampleToken).Token
          submittedStore).store.appointments
        = submittedStore.appointments ++ [a] ∧
      a.StartTime = startTime ∧
      a.EndTime = endTime ∧
      a.EndTime.unixNano - a.StartTime.unixNano = m.DurationMinutes * Minute :=
  approve_appointment_round_trip sampleEnv sampleBooking
    { appointments := [], pendingRequests := [] }
    (newPendingRequest sampleEnv sampleBooking gdcPleasantTalk sampleToken)
    (by decide) (by decide) sampleEnv submittedStore 0 (by decide)

/-- C10: a successful `Approve` or `Deny` changes only the `Status` of the one matched pending
request: the pending list keeps its length and order, the entry at the matched index keeps
every other field, all other entries are unchanged, `Approve` appends exactly one appointment
and `Deny` leaves the appointment list as it was. -/
theorem approve_deny_frame (env : Env) (method token : String) (st : Store) (approve : Bool)
    (out : Outcome)
    (hout : out = if approve then handleApprove env method token st
      else handleDeny method token st)
    (hok : out.response.isError = false) :
    ∃ (i : Nat) (r : PendingRequest),
      st.pendingRequests[i]? = some r ∧ r.Token = token ∧ r.Status = "pending" ∧
      out.store.pendingRequests.length = st.pendingRequests.length ∧
      out.store.pendingRequests[i]?
        = some { r with Status := if approve then "approved" else "denied" } ∧
      (∀ j : Nat, j ≠ i → out.store.pendingRequests[j]? = st.pendingRequests[j]?) ∧
      (if approve then ∃ a : Appointment, out.store.appointments = st.appointments ++ [a]
        else out.store.appointments = st.appointments) := by
  cases approve with
  | true =>
    simp only [if_true] at hout ⊢
    subst hout
    obtain ⟨hm, ht, i, r, hf⟩ := handleApprove_success env method token st hok
    subst hm
    obtain ⟨hget, htok, hstat⟩ := findPending_eq_some token _ i r hf
    obtain ⟨hp, a, ha, _, _⟩ := handleApprove_store env token st ht i r hf
    have hi : i < st.pendingRequests.length := by
      by_contra hc
      rw [List.getElem?_eq_none (by omega)] at hget
      cases hget
    refine ⟨i, r, hget, htok, hstat, ?_, ?_, ?_, a, ha⟩
    · rw [hp, List.length_set]
    · rw [hp, List.getElem?_set, if_pos rfl, if_pos hi]
    · intro j hj
      rw [hp, List.getElem?_set_ne (Ne.symm hj)]
  | false =>
    simp only [Bool.false_eq_true, if_false] at hout ⊢
    subst hout
    obtain ⟨hm, ht, i, r, hf⟩ := handleDeny_success method token st hok
    subst hm
    obtain ⟨hget, htok, hstat⟩ := findPending_eq_some token _ i r hf
    obtain ⟨hp, ha⟩ := handleDeny_store token st ht i r hf
    have hi : i < st.pendingRequests.length := by
      by_contra hc
      rw [List.getElem?_eq_none (by omega)] at hget
      cases hget
    refine ⟨i, r, hget, htok, hstat, ?_, ?_, ?_, ha⟩
    · rw [hp, List.length_set]
    · rw [hp, List.getElem?_set, if_pos rfl, if_pos hi]
    · intro j hj
      rw [hp, List.getElem?_set_ne (Ne.symm hj)]

/-- Witness for C10: denying the sample request right after its submission. -/
theorem approve_deny_frame_witness :
    ∃ (i : Nat) (r : PendingRequest),
      submittedStore.pendingRequests[i]? = some r ∧ r.Token = sampleToken ∧
      r.Status = "pending" ∧
      (handleDeny "POST" sampleToken submittedStore).store.pendingRequests.length
        = submittedStore.pendingRequests.length ∧
      (handleDeny "POST" sampleToken submittedStore).store.pendingRequests[i]?
        = some { r with Status := if false then "approved" else "denied" } ∧
      (∀ j : Nat, j ≠ i →
        (handleDeny "POST" sampleToken submittedStore).store.pendingRequests[j]?
          = submittedStore.pendingRequests[j]?) ∧
      (if false then ∃ a : Appointment,
          (handleDeny "POST" sampleToken submittedStore).store.appointments
            = submittedStore.appointments ++ [a]
        else (handleDeny "POST" sampleToken submittedStore).store.appointments
          = submittedStore.appointments) :=
  approve_deny_frame sampleEnv "POST" sampleToken submittedStore false
    (handleDeny "POST" sampleToken submittedStore) rfl (by decide)

/-! ## Notifications and the store lock -/

theorem handleBooking_effects (catalog : String → Option MeetingType) (env : Env)
    (method : String) (body : Option BookingRequest) (st : Store) :
    notifiesWhileLocked false (handleBooking catalog env method body st).effects = false := by
  unfold handleBooking
  repeat' split
  all_goals rfl

/-- C11, evaluated on the code: `handleBooking` never notifies while the lock is held, but a
successful `handleApprove` sends the confirmation email, and a successful `handleDeny` the
decline email, between `Lock` and the deferred `Unlock`. -/
theorem approve_deny_notify_while_locked :
    (∀ (catalog : String → Option MeetingType) (env : Env) (method : String)
        (body : Option BookingRequest) (st : Store),
      notifiesWhileLocked false (handleBooking catalog env method body st).effects = false) ∧
    (handleApprove sampleEnv "POST" sampleToken submittedStore).effects
      = [.lock,
         .sendConfirmationEmail
           (newAppointment sampleEnv
             (newPendingRequest sampleEnv sampleBooking gdcPleasantTalk sampleToken)
             (Date 2026 3 9 13 20 0 0) (Date 2026 3 9 14 0 0 0)),
         .unlock] ∧
    (handleDeny "POST" sampleToken submittedStore).effects
      = [.lock,
         .sendDeclineEmail
           { newPendingRequest sampleEnv sampleBooking gdcPleasantTalk sampleToken with
             Status := "denied" },
         .unlock] ∧
    notifiesWhileLocked false
      (handleApprove sampleEnv "POST" sampleToken submittedStore).effects = true ∧
    notifiesWhileLocked false (handleDeny "POST" sampleToken submittedStore).effects = true ∧
    (∀ (env : Env) (method token : String) (st : Store),
      (handleApprove env method token st).response.isError = false →
      notifiesWhileLocked false (handleApprove env method token st).effects = true) ∧
    (∀ (method token : String) (st : Store),
      (handleDeny method token st).response.isError = false →
      notifiesWhileLocked false (handleDeny method token st).effects = true) := by
  refine ⟨handleBooking_effects, by decide, by decide, by decide, by decide, ?_, ?_⟩
  · intro env method token st hok
    obtain ⟨hm, ht, i, r, hf⟩ := handleApprove_success env method token st hok
    subst hm
    simp [handleApprove, ht, hf, notifiesWhileLocked]
  · intro method token st hok
    obtain ⟨hm, ht, i, r, hf⟩ := handleDeny_success method token st hok
    subst hm
    simp [handleDeny, ht, hf, notifiesWhileLocked]

/-! ## Identifiers -/

/-- C12, evaluated on the code: two calls of `generateID` whose four clock readings strictly
increase return the same identifier, and the store after the two submissions holds two pending
requests with that identifier. -/
theorem generateID_repeats :
    firstCallEnv.idClockUnix.unixNano < firstCallEnv.idClockNano.unixNano ∧
    firstCallEnv.idClockNano.unixNano < secondCallEnv.idClockUnix.unixNano ∧
    secondCallEnv.idClockUnix.unixNano < secondCallEnv.idClockNano.unixNano ∧
    generateID firstCallEnv.idClockUnix firstCallEnv.idClockNano = "1772366400-200000000" ∧
    generateID secondCallEnv.idClockUnix secondCallEnv.idClockNano = "1772366400-200000000" ∧
    twiceSubmittedStore.pendingRequests.length = 2 ∧
    twiceSubmittedStore.pendingRequests.map (fun r => r.ID)
      = ["1772366400-200000000", "1772366400-200000000"] ∧
    ¬ (twiceSubmittedStore.pendingRequests.map (fun r => r.ID)).Nodup := by
  decide

/-! ## Engine against validator -/

theorem digitChar_facts (d : Nat) (hd : d < 10) :
    isDigitChar (Char.ofNat (48 + d)) = true ∧ digitVal (Char.ofNat (48 + d)) = (d : Int) ∧
      Char.ofNat (48 + d) ≠ ' ' := by
  interval_cases d <;> decide

theorem parseDate_some (v : String) (t : Time) (h : parseDate v = some t) :
    ∃ year r1 r2 month r3 r4 day,
      getLongYear v.toList = some (year, r1) ∧ skipLit r1 ['-'] = some r2 ∧
      getnum r2 true = some (month, r3) ∧ 1 ≤ month ∧ month ≤ 12 ∧
      skipLit r3 ['-'] = some r4 ∧ getnum r4 true = some (day, []) ∧
      1 ≤ day ∧ day ≤ daysIn month year ∧ t = Date year month day 0 0 0 0 := by
  unfold parseDate at h
  simp only [Option.bind_eq_bind, Option.bind_eq_some] at h
  obtain ⟨⟨year, r1⟩, h1, r2, h2, ⟨month, r3⟩, h3, h⟩ := h
  dsimp only at h2 h3 h
  by_cases hm : month ≤ 0 ∨ 12 < month
  · simp [hm] at h
  · simp only [hm, if_false, Option.pure_def, Option.some_bind, Option.bind_eq_some] at h
    obtain ⟨r4, h4, ⟨day, r5⟩, h5, h⟩ := h
    dsimp only at h5 h
    by_cases hr : r5 ≠ []
    · simp [hr] at h
    · simp only [hr, if_false, Option.some_bind] at h
      by_cases hd : day < 1 ∨ day > daysIn month year
      · simp [hd] at h
      · simp only [hd, if_false, Option.some_bind, Option.some.injEq] at h
        simp only [ne_eq, not_not] at hr
        subst hr
        exact ⟨year, r1, r2, month, r3, r4, day, h1, h2, h3, by omega, by omega, h4, h5,
          by omega, by omega, h.symm⟩

theorem parseDateTime_of (l : List Char) (year month day hour min : Int)
    (r1 r2 r3 r4 r5 r6 r7 r8 : List Char)
    (h1 : getLongYear l = some (year, r1)) (h2 : skipLit r1 ['-'] = some r2)
    (h3 : getnum r2 true = some (month, r3)) (hm1 : 1 ≤ month) (hm2 : month ≤ 12)
    (h4 : skipLit r3 ['-'] = some r4) (h5 : getnum r4 true = some (day, r5))
    (h6 : skipSpace r5 = some r6) (h7 : getnum r6 false = some (hour, r7))
    (hh1 : 0 ≤ hour) (hh2 : hour < 24)
    (h8 : skipLit r7 [':'] = some r8) (h9 : getnum r8 true = some (min, []))
    (hn1 : 0 ≤ min) (hn2 : min < 60)
    (hd1 : 1 ≤ day) (hd2 : day ≤ daysIn month year) (v : String) (hv : v.toList = l) :
    parseDateTime v = some (Date year month day hour min 0 0) := by
  have hm : ¬ (month ≤ 0 ∨ 12 < month) := by omega
  have hh : ¬ (hour < 0 ∨ 24 ≤ hour) := by omega
  have hn : ¬ (min < 0 ∨ 60 ≤ min) := by omega
  have hd : ¬ (day < 1 ∨ day > daysIn month year) := by omega
  have hv1 : v.data = l := hv
  subst hv1
  simp [parseDateTime, h1, h2, h3, hm, h4, h5, h6, h7, hh, h8, h9, hn, hd]

theorem getLongYear_append (l r rest : List Char) (y : Int)
    (h : getLongYear l = some (y, rest)) : getLongYear (l ++ r) = some (y, rest ++ r) := by
  match l, h with
  | a :: b :: c :: d :: tl, h =>
    simp only [getLongYear] at h
    split_ifs at h with hc
    simp only [Option.some.injEq, Prod.mk.injEq] at h
    obtain ⟨rfl, rfl⟩ := h
    simp [getLongYear, hc]

theorem skipLit_append (l r rest : List Char) (c : Char)
    (h : skipLit l [c] = some rest) : skipLit (l ++ r) [c] = some (rest ++ r) := by
  cases l with
  | nil => simp [skipLit] at h
  | cons a tl =>
    simp only [skipLit] at h
    split_ifs at h with hc
    simp only [Option.some.injEq] at h
    subst h
    simp [skipLit, hc]

theorem getnum_fixed_append (l r rest : List Char) (n : Int)
    (h : getnum l true = some (n, rest)) : getnum (l ++ r) true = some (n, rest ++ r) := by
  match l, h with
  | [a], h => simp [getnum] at h
  | a :: b :: tl, h =>
    simp only [getnum] at h
    split_ifs at h with h1 h2
    simp only [Option.some.injEq, Prod.mk.injEq] at h
    obtain ⟨rfl, rfl⟩ := h
    simp [getnum, h1, h2]

theorem Date_clock (year month day hour min : Int) :
    Date year month day hour min 0 0
      = ⟨(Date year month day 0 0 0 0).unixNano + hour * Hour + min * Minute⟩ := by
  simp [Date]

theorem parseDateTime_label (v : String) (date : Time) (hour min : Int)
    (hp : parseDate v = some date) (hh1 : 0 ≤ hour) (hh2 : hour < 24) (hn1 : 0 ≤ min)
    (hn2 : min < 60) :
    parseDateTime (v ++ " " ++ (pad2 hour ++ ":" ++ pad2 min))
      = some ⟨date.unixNano + hour * Hour + min * Minute⟩ := by
  obtain ⟨year, r1, r2, month, r3, r4, day, h1, h2, h3, hm1, hm2, h4, h5, hd1, hd2, rfl⟩ :=
    parseDate_some v date hp
  obtain ⟨a1, a2, a3⟩ := digitChar_facts (hour / 10 % 10).toNat (by omega)
  obtain ⟨b1, b2, b3⟩ := digitChar_facts (hour % 10).toNat (by omega)
  obtain ⟨c1, c2, c3⟩ := digitChar_facts (min / 10 % 10).toNat (by omega)
  obtain ⟨d1, d2, d3⟩ := digitChar_facts (min % 10).toNat (by omega)
  rw [← Date_clock]
  generalize hR : [' ', Char.ofNat (48 + (hour / 10 % 10).toNat),
    Char.ofNat (48 + (hour % 10).toNat), ':', Char.ofNat (48 + (min / 10 % 10).toNat),
    Char.ofNat (48 + (min % 10).toNat)] = R
  have hv : (v ++ " " ++ (pad2 hour ++ ":" ++ pad2 min)).toList = v.toList ++ R := by
    rw [← hR]
    simp [pad2, String.toList]
  refine parseDateTime_of (v.toList ++ R) year month day hour min (r1 ++ R) (r2 ++ R)
    (r3 ++ R) (r4 ++ R) R (R.tail) (R.tail.tail.tail) (R.tail.tail.tail.tail)
    (getLongYear_append _ _ _ _ h1) (skipLit_append _ _ _ _ h2)
    (getnum_fixed_append _ _ _ _ h3) hm1 hm2 (skipLit_append _ _ _ _ h4)
    (by simpa using getnum_fixed_append _ R _ _ h5) ?_ ?_ hh1 hh2 ?_ ?_ hn1 hn2 hd1 hd2 _ hv
  · rw [← hR]
    have a4 := beq_eq_false_iff_ne.mpr a3
    simp [skipSpace, cutspace, List.dropWhile, a4]
  · rw [← hR]
    simp only [List.tail_cons, getnum, a1, b1, if_true, a2, b2, Option.some.injEq,
      Prod.mk.injEq, and_true]
    omega
  · rw [← hR]
    simp [skipLit]
  · rw [← hR]
    simp only [List.tail_cons, getnum, c1, d1, if_true, c2, d2, Option.some.injEq,
      Prod.mk.injEq, and_true]
    omega

theorem parseDate_midnight (v : String) (date : Time) (hp : parseDate v = some date) :
    date.unixNano % nsPerDay = 0 := by
  obtain ⟨year, r1, r2, month, r3, r4, day, _, _, _, _, _, _, _, _, _, rfl⟩ :=
    parseDate_some v date hp
  simp [Date]

theorem handleAvailability_slots (catalog : String → Option MeetingType)
    (areq : AvailabilityRequest) (mt : MeetingType) (slots : List TimeSlot)
    (hcat : catalog areq.MeetingTypeID = some mt)
    (hresp : handleAvailability catalog "POST" (some areq) = .slots slots) :
    slots = [] ∨ ∃ date, parseDate areq.Date = some date ∧
      dateInRange date mt.DateStart mt.DateEnd = true ∧
      slots = getAvailableSlots date areq.Timezone mt := by
  unfold handleAvailability handleAvailabilityWith at hresp
  by_cases hid : areq.MeetingTypeID = ""
  · simp [hid] at hresp
  · simp only [ne_eq, not_true_eq_false, if_false, hid, hcat] at hresp
    cases hp : parseDate areq.Date with
    | none => simp [hp] at hresp
    | some date =>
      simp only [hp] at hresp
      cases hr : dateInRange date mt.DateStart mt.DateEnd with
      | false =>
        simp only [hr, Bool.not_false, if_true, Response.slots.injEq] at hresp
        exact Or.inl hresp.symm
      | true =>
        simp only [hr, Bool.not_true, Bool.false_eq_true, if_false, Response.slots.injEq] at hresp
        exact Or.inr ⟨date, rfl, hr, hresp.symm⟩

theorem slot_clock (date s : Time) (x : Int) (hd : date.unixNano % nsPerDay = 0)
    (hs : s.unixNano = date.unixNano + x) (hx0 : 0 ≤ x) (hx1 : x < nsPerDay)
    (hxm : x % Minute = 0) :
    (0 ≤ s.Hour ∧ s.Hour < 24) ∧ (0 ≤ s.Minute ∧ s.Minute < 60) ∧
    date.unixNano + s.Hour * Hour + s.Minute * Minute = s.unixNano ∧
    startOfDay s = date.unixNano := by
  unfold Time.Hour Time.Minute startOfDay Hour Minute nsPerDay at *
  omega

theorem minutesDuration_of_fits (n : Int) (h0 : 0 ≤ n) (h1 : n ≤ 153722867) :
    minutesDuration n = n * Minute ∧ 0 ≤ minutesDuration n := by
  unfold minutesDuration wrapInt64 Minute
  have hge : 0 ≤ n * 60000000000 + 9223372036854775808 := by omega
  have hlt : n * 60000000000 + 9223372036854775808 < 18446744073709551616 := by omega
  rw [Int.emod_eq_of_lt hge hlt]
  omega

/-- C13: for a meeting type whose computed duration `time.Duration(DurationMinutes) * time.Minute`
is non-negative and whose `DailyEnd` clock is at most 23:00, every slot the availability
query returns for a date (which needs well-formed date and clock strings and a date in range) is
the label of a start time that `validateBooking`, given the same date string and the label,
accepts: parse, date range, daily window and blocked ranges all pass. -/
theorem offered_slots_pass_validation (catalog : String → Option MeetingType)
    (areq : AvailabilityRequest) (mt : MeetingType) (endClock : Time)
    (slots : List TimeSlot) (slot : TimeSlot)
    (hcat : catalog areq.MeetingTypeID = some mt)
    (hec : parseClock mt.DailyEnd = some endClock)
    (h23 : endClock.Hour * Hour + endClock.Minute * Minute ≤ 23 * Hour)
    (hdur : 0 ≤ minutesDuration mt.DurationMinutes)
    (hresp : handleAvailability catalog "POST" (some areq) = .slots slots)
    (hslot : slot ∈ slots) :
    ∃ start : Time, slot.Time = start.Format1504 ∧
      validateBooking mt areq.Date slot.Time
        = .ok (start, start.Add (minutesDuration mt.DurationMinutes)) := by
  rcases handleAvailability_slots catalog areq mt slots hcat hresp with
    rfl | ⟨date, hp, hr, rfl⟩
  · cases hslot
  · rw [getAvailableSlots_eq] at hslot
    cases hsc : parseClock mt.DailyStart with
    | none => simp [buildDailyWindow, hsc] at hslot
    | some startClock =>
      rw [buildDailyWindow_eq date mt startClock endClock hsc hec] at hslot
      simp only [if_true, expectedSlots, List.mem_map, List.mem_filter, mem_candidates,
        slotCount_iff] at hslot
      obtain ⟨s, ⟨⟨k, hk, rfl⟩, hov⟩, rfl⟩ := hslot
      have hmid := parseDate_midnight areq.Date date hp
      obtain ⟨hs0, hs1⟩ := clock_offset_bounds startClock
      have hsod : startOfDay date = date.unixNano := by
        unfold startOfDay nsPerDay at *
        omega
      obtain ⟨s, hsdef⟩ : ∃ s : Time, s = (⟨startOfDay date + startClock.Hour * Hour
          + startClock.Minute * Minute⟩ : Time).Add (10 * Minute * (k : Int)) := ⟨_, rfl⟩
      rw [← hsdef] at hov ⊢
      rw [hsod] at hk hsdef
      have hsval : s.unixNano = date.unixNano
          + (startClock.Hour * Hour + startClock.Minute * Minute + 10 * Minute * (k : Int)) := by
        rw [hsdef]
        simp only [Time.Add]
        omega
      have hx0 : 0 ≤ startClock.Hour * Hour + startClock.Minute * Minute
          + 10 * Minute * (k : Int) := by
        unfold Minute at *
        omega
      have hx23 : startClock.Hour * Hour + startClock.Minute * Minute
          + 10 * Minute * (k : Int) ≤ 23 * Hour := by
        unfold Minute Hour at *
        omega
      have hxm : (startClock.Hour * Hour + startClock.Minute * Minute
          + 10 * Minute * (k : Int)) % Minute = 0 := by
        unfold Minute Hour
        omega
      obtain ⟨hH, hM, hsum, hsods⟩ := slot_clock date s _ hmid hsval hx0
        (by unfold nsPerDay Hour at *; omega) hxm
      refine ⟨s, rfl, ?_⟩
      have hparse : parseDateTime (areq.Date ++ " " ++ (slotAt s).Time) = some s := by
        show parseDateTime (areq.Date ++ " " ++ (pad2 s.Hour ++ ":" ++ pad2 s.Minute)) = some s
        rw [parseDateTime_label areq.Date date s.Hour s.Minute hp hH.1 hH.2 hM.1 hM.2, hsum]
      have hrange : dateInRange s mt.DateStart mt.DateEnd = true := by
        rw [dateInRange_iff] at hr ⊢
        obtain ⟨S, E, hS, hE, h1, h2⟩ := hr
        have hEm := parseDate_midnight _ E hE
        refine ⟨S, E, hS, hE, ?_, ?_⟩
        · omega
        · unfold nsPerDay Hour at *
          omega
      have hwin : isWithinDailyWindow s (s.Add (minutesDuration mt.DurationMinutes)) mt
          = true := by
        rw [isWithinDailyWindow_iff]
        refine ⟨_, _, buildDailyWindow_eq s mt startClock endClock hsc hec, ?_, ?_⟩
        · rw [hsods]
          show date.unixNano + startClock.Hour * Hour + startClock.Minute * Minute ≤ s.unixNano
          unfold Minute at *
          omega
        · rw [hsods]
          show s.unixNano + minutesDuration mt.DurationMinutes
            ≤ date.unixNano + endClock.Hour * Hour + endClock.Minute * Minute
          omega
      have hov2 : overlapsBlockedRange s (s.Add (minutesDuration mt.DurationMinutes)) mt
          = false := by
        simpa using hov
      simp [validateBooking, hparse, hrange, hwin, hov2]

/-- Witness for C13: the slot 13:20 of the 40-minute catalog type on 2026-03-09. -/
theorem offered_slots_pass_validation_witness :
    ∃ start : Time, "13:20" = start.Format1504 ∧
      validateBooking gdcPleasantTalk "2026-03-09" "13:20"
        = .ok (start, start.Add (minutesDuration gdcPleasantTalk.DurationMinutes)) :=
  offered_slots_pass_validation meetingTypes
    { Date := "2026-03-09", Timezone := "UTC", MeetingTypeID := "gdc-pleasant-talk" }
    gdcPleasantTalk (Date 0 1 1 17 0 0 0)
    (getAvailableSlots (Date 2026 3 9 0 0 0 0) "UTC" gdcPleasantTalk)
    { Time := "13:20", Available := true }
    (by decide) (by decide) (by decide) (by decide) (by rfl)
    (by rw [getAvailableSlots_eq]; decide)

end MeetMike
